import Mathlib

/-! # libglua, V8 backend (`src/src/GluaV8.cpp`): the virtual stack and its marshalling

A shallow embedding of `kdk::glua::GluaV8`.  The object is a record of its data members; every
member function is a function from the record to an `Outcome`, which says whether the call
returned, threw a C++ exception (the record as the throw left it is kept, since a C++ exception
does not undo the writes made before it), or ended the process.

The V8 engine itself is outside the repository.  It is represented by a small value model:
script values (`Value`), a heap of property bags (`JSObject`) addressed by the object values, and
the handful of V8 API calls the backend makes (`Int32::New`, `Value::ToInt32`, `Object::Set`, ...).
-/

namespace kdk.glua

/-! ## Machine integers -/

/-- Conversion to `int`/`int32_t`: reduction modulo 2^32 into [-2^31, 2^31). -/
def toInt32 (x : Int) : Int := (x + 2147483648) % 4294967296 - 2147483648

/-- Conversion to `uint32_t`: reduction modulo 2^32. -/
def toUInt32 (x : Int) : Int := x % 4294967296

/-- Conversion to `int8_t`. -/
def toInt8 (x : Int) : Int := (x + 128) % 256 - 128

/-- Conversion to `int16_t`. -/
def toInt16 (x : Int) : Int := (x + 32768) % 65536 - 32768

/-- Conversion to `uint8_t`. -/
def toUInt8 (x : Int) : Int := x % 256

/-- Conversion to `uint16_t`. -/
def toUInt16 (x : Int) : Int := x % 65536

/-- Conversion to `size_t` (64 bits). -/
def toSizeT (x : Int) : Nat := (x % 18446744073709551616).toNat

/-! ## Strings -/

/-- A `std::string` / `std::string_view`: its bytes, each in 0..255. -/
abbrev StdString := List Nat

/-- A V8 string: its UTF-16 code units, each in 0..65535. -/
abbrev JSString := List Nat

/-! ## Script values -/

/-- A script value, what a non-empty `v8::Local<v8::Value>` refers to.  `number n` is a Number
whose value is the integer `n`; `fraction bits` is any other Number (a non-integral double,
minus zero, an infinity or NaN), named by its IEEE bit pattern; `object addr` refers to the
heap object at `addr` (a plain object or an array). -/
inductive Value where
  | undefined
  | null
  | boolean (b : Bool)
  | number (n : Int)
  | fraction (bits : Nat)
  | string (str : JSString)
  | bigint (n : Int)
  | object (addr : Nat)
  deriving DecidableEq, Repr

/-- A `v8::Global<v8::Value>` or `v8::Local<v8::Value>`: empty (`none`) or referring to a
value. -/
abbrev Cell := Option Value

/-- The key of a property.  `index i`, with `i` below 2^32, is the property named by the
decimal spelling of `i`, whether the key was given as a Number or as the String that spells it;
`name` is the property named by any other string. -/
inductive PropertyKey where
  | index (i : Nat)
  | name (str : JSString)
  deriving DecidableEq, Repr

/-- A heap object: a plain object (`v8::Object::New`) or an array (`v8::Array::New`), as the bag
of its own properties, in insertion order.  `length` is the array length (unused for a plain
object).  Prototype chains and accessors are not represented. -/
structure JSObject where
  isArray : Bool
  length : Nat
  props : List (PropertyKey × Value)
  deriving DecidableEq, Repr

/-- The C++ exceptions the backend can throw. -/
inductive Exn where
  | out_of_range
  | length_error
  | V8Exception (msg : String)
  deriving DecidableEq, Repr

/-- The data members of `GluaV8` (GluaV8.h), with the isolate reduced to the heap of objects the
handles refer to.  The registry owns its callables through `std::unique_ptr<ICallable>`; an
entry is represented by the address of the `ICallable` it owns, the identity that
`RegisterCallable` also hands to the function template. -/
structure GluaV8 where
  heap : List JSObject
  m_global_template : List (JSString × Nat)
  m_stack : List Cell
  m_global_values : List (StdString × Cell)
  m_registry : List (StdString × Nat)
  deriving DecidableEq, Repr

/-- How a call on a `GluaV8` ends: it returns `val` leaving the object as `s`; it throws the
C++ exception `e` leaving the object as `s`; V8 reports a fatal error (`ToLocalChecked` or
`ToChecked` on an empty result) and aborts the process; or the call has undefined behaviour
(`back()` on an empty vector, a call through an empty handle).  `notModelled` marks a call
that leaves the part of V8 represented here (for instance the conversion of a string or of an
object to a number, which runs the engine's parser or script code): nothing is asserted about
it. -/
inductive Outcome (α : Type) where
  | ok (val : α) (s : GluaV8)
  | throws (e : Exn) (s : GluaV8)
  | fatal
  | undefinedBehaviour
  | notModelled
  deriving DecidableEq, Repr

/-- Sequencing of two calls: the second runs only when the first returned. -/
def Outcome.andThen {α β : Type} (r : Outcome α) (f : α → GluaV8 → Outcome β) : Outcome β :=
  match r with
  | .ok a s => f a s
  | .throws e s => .throws e s
  | .fatal => .fatal
  | .undefinedBehaviour => .undefinedBehaviour
  | .notModelled => .notModelled

/-! ## Stack addressing (GluaV8.cpp 546-560) -/

/-- Member `GluaV8::absoluteIndex`: `static_cast<int>(m_stack.size()) + index` for a negative index,
the index itself otherwise.  `index` is an `int`. -/
def GluaV8.absoluteIndex (s : GluaV8) (index : Int) : Int :=
  if index < 0 then toInt32 (toInt32 s.m_stack.length + index) else index

/-- Container call `std::vector::at(n)` on the stack: the cell at `n`, or `std::out_of_range`. -/
def GluaV8.stackAt (s : GluaV8) (n : Nat) : Outcome Cell :=
  match s.m_stack[n]? with
  | some c => .ok c s
  | none => .throws .out_of_range s

/-- Member `GluaV8::getAtStackPos`: `m_stack.at(absoluteIndex(index)).Get(isolate)`; the `int` is
converted to the `size_t` that `at` takes. -/
def GluaV8.getAtStackPos (s : GluaV8) (index : Int) : Outcome Cell :=
  let absolute_index := s.absoluteIndex index
  s.stackAt (toSizeT absolute_index)

/-- Statement `m_stack.emplace_back(isolate, local)`: one more cell on top of the stack. -/
def GluaV8.emplace_back (s : GluaV8) (c : Cell) : GluaV8 :=
  { s with m_stack := s.m_stack ++ [c] }

/-! ## The V8 calls on primitive values -/

/-- Call `v8::Int32::New(isolate, value)`: the Number with the value of the `int32_t` argument. -/
def v8.Int32_New (value : Int) : Value := .number (toInt32 value)

/-- Call `v8::Uint32::New(isolate, value)`: the Number with the value of the `uint32_t` argument. -/
def v8.Uint32_New (value : Int) : Value := .number (toUInt32 value)

/-- Call `value->ToInt32(context).ToLocalChecked()->Value()` on a cell.  ECMAScript ToInt32 takes
an integral Number modulo 2^32 into the `int32_t` range, a boolean to 0 or 1, undefined and null
to 0.  A BigInt does not convert (the MaybeLocal is empty and `ToLocalChecked` is fatal); a
member call through an empty handle is undefined. -/
def v8.ToInt32Checked (c : Cell) (s : GluaV8) : Outcome Int :=
  match c with
  | none => .undefinedBehaviour
  | some (.number n) => .ok (toInt32 n) s
  | some (.boolean b) => .ok (if b then 1 else 0) s
  | some .undefined => .ok 0 s
  | some .null => .ok 0 s
  | some (.bigint _) => .fatal
  | some (.fraction _) => .notModelled
  | some (.string _) => .notModelled
  | some (.object _) => .notModelled

/-- Call `value->ToUint32(context).ToLocalChecked()->Value()` on a cell: as `ToInt32Checked`, with
the result in the `uint32_t` range. -/
def v8.ToUint32Checked (c : Cell) (s : GluaV8) : Outcome Int :=
  match c with
  | none => .undefinedBehaviour
  | some (.number n) => .ok (toUInt32 n) s
  | some (.boolean b) => .ok (if b then 1 else 0) s
  | some .undefined => .ok 0 s
  | some .null => .ok 0 s
  | some (.bigint _) => .fatal
  | some (.fraction _) => .notModelled
  | some (.string _) => .notModelled
  | some (.object _) => .notModelled

/-! ## Integer push and get (GluaV8.cpp 118-157, 245-288) -/

/-- Member `GluaV8::push(int8_t)`. -/
def GluaV8.push_int8 (s : GluaV8) (value : Int) : Outcome Unit :=
  .ok () (s.emplace_back (some (v8.Int32_New value)))

/-- Member `GluaV8::push(int16_t)`. -/
def GluaV8.push_int16 (s : GluaV8) (value : Int) : Outcome Unit :=
  .ok () (s.emplace_back (some (v8.Int32_New value)))

/-- Member `GluaV8::push(int32_t)`. -/
def GluaV8.push_int32 (s : GluaV8) (value : Int) : Outcome Unit :=
  .ok () (s.emplace_back (some (v8.Int32_New value)))

/-- Member `GluaV8::push(int64_t)`: the value goes through `static_cast<int32_t>`. -/
def GluaV8.push_int64 (s : GluaV8) (value : Int) : Outcome Unit :=
  .ok () (s.emplace_back (some (v8.Int32_New (toInt32 value))))

/-- Member `GluaV8::push(uint8_t)`. -/
def GluaV8.push_uint8 (s : GluaV8) (value : Int) : Outcome Unit :=
  .ok () (s.emplace_back (some (v8.Uint32_New value)))

/-- Member `GluaV8::push(uint16_t)`. -/
def GluaV8.push_uint16 (s : GluaV8) (value : Int) : Outcome Unit :=
  .ok () (s.emplace_back (some (v8.Uint32_New value)))

/-- Member `GluaV8::push(uint32_t)`. -/
def GluaV8.push_uint32 (s : GluaV8) (value : Int) : Outcome Unit :=
  .ok () (s.emplace_back (some (v8.Uint32_New value)))

/-- Member `GluaV8::push(uint64_t)`: the value goes through `static_cast<uint32_t>`. -/
def GluaV8.push_uint64 (s : GluaV8) (value : Int) : Outcome Unit :=
  .ok () (s.emplace_back (some (v8.Uint32_New (toUInt32 value))))

/-- Member `GluaV8::getInt8`: `static_cast<int8_t>` of the `ToInt32` conversion. -/
def GluaV8.getInt8 (s : GluaV8) (stack_index : Int) : Outcome Int :=
  ((s.getAtStackPos stack_index).andThen v8.ToInt32Checked).andThen fun n s1 => .ok (toInt8 n) s1

/-- Member `GluaV8::getInt16`: `static_cast<int16_t>` of the `ToInt32` conversion. -/
def GluaV8.getInt16 (s : GluaV8) (stack_index : Int) : Outcome Int :=
  ((s.getAtStackPos stack_index).andThen v8.ToInt32Checked).andThen fun n s1 => .ok (toInt16 n) s1

/-- Member `GluaV8::getInt32`: the `ToInt32` conversion. -/
def GluaV8.getInt32 (s : GluaV8) (stack_index : Int) : Outcome Int :=
  (s.getAtStackPos stack_index).andThen v8.ToInt32Checked

/-- Member `GluaV8::getInt64`: the `ToInt32` conversion, widened to `int64_t`. -/
def GluaV8.getInt64 (s : GluaV8) (stack_index : Int) : Outcome Int :=
  (s.getAtStackPos stack_index).andThen v8.ToInt32Checked

/-- Member `GluaV8::getUInt8`: `static_cast<uint8_t>` of the `ToUint32` conversion. -/
def GluaV8.getUInt8 (s : GluaV8) (stack_index : Int) : Outcome Int :=
  ((s.getAtStackPos stack_index).andThen v8.ToUint32Checked).andThen fun n s1 => .ok (toUInt8 n) s1

/-- Member `GluaV8::getUInt16`: `static_cast<uint16_t>` of the `ToUint32` conversion. -/
def GluaV8.getUInt16 (s : GluaV8) (stack_index : Int) : Outcome Int :=
  ((s.getAtStackPos stack_index).andThen v8.ToUint32Checked).andThen fun n s1 => .ok (toUInt16 n) s1

/-- Member `GluaV8::getUInt32`: the `ToUint32` conversion. -/
def GluaV8.getUInt32 (s : GluaV8) (stack_index : Int) : Outcome Int :=
  (s.getAtStackPos stack_index).andThen v8.ToUint32Checked

/-- Member `GluaV8::getUInt64`: the `ToUint32` conversion, widened to `uint64_t`. -/
def GluaV8.getUInt64 (s : GluaV8) (stack_index : Int) : Outcome Int :=
  (s.getAtStackPos stack_index).andThen v8.ToUint32Checked

/-! ## popOffStack (GluaV8.cpp 516-519) -/

/-- The `max_size()` of a `std::vector` of 8-byte handles. -/
def vectorMaxSize : Nat := 1152921504606846975

/-- Statement `m_stack.resize(n)`: the first `n` cells when the vector shrinks, default-constructed
(empty) handles appended when it grows, `std::length_error` beyond `max_size()`. -/
def GluaV8.resize (s : GluaV8) (n : Nat) : Outcome Unit :=
  if n ≤ s.m_stack.length then .ok () { s with m_stack := s.m_stack.take n }
  else if vectorMaxSize < n then .throws .length_error s
  else .ok () { s with m_stack := s.m_stack ++ List.replicate (n - s.m_stack.length) none }

/-- Member `GluaV8::popOffStack`: `m_stack.resize(m_stack.size() - count)`, in `size_t`
arithmetic. -/
def GluaV8.popOffStack (s : GluaV8) (count : Nat) : Outcome Unit :=
  s.resize (toSizeT ((s.m_stack.length : Int) - (count : Int)))

/-! ## Concrete states used to exercise the results -/

/-- A stack of three cells over an empty heap. -/
def demoStack : GluaV8 :=
  { heap := [], m_global_template := [],
    m_stack := [some (.number 10), some (.boolean true), some (.number (-7))],
    m_global_values := [], m_registry := [] }

/-- An engine with nothing on its stack. -/
def emptyGlua : GluaV8 :=
  { heap := [], m_global_template := [], m_stack := [], m_global_values := [], m_registry := [] }

/-! ## The V8 calls on strings

Strings are taken to be shorter than V8's `String::kMaxLength`, so that the
`static_cast<int>(size())` handed to `NewFromUtf8` is the size and `NewFromUtf8` returns a
string. -/

/-- The UTF-16 code units of a code point. -/
def v8.utf16Units (cp : Nat) : List Nat :=
  if cp < 65536 then [cp]
  else [55296 + (cp - 65536) / 1024, 56320 + (cp - 65536) % 1024]

/-- What a byte that opens a UTF-8 sequence yields: the code units it emits at once, the number
of continuation bytes it still expects, and the bits of the code point read so far. -/
def v8.utf8Lead (b : Nat) : List Nat × Nat × Nat :=
  if b < 128 then ([b], 0, 0)
  else if 194 ≤ b ∧ b < 224 then ([], 1, b % 32)
  else if 224 ≤ b ∧ b < 240 then ([], 2, b % 16)
  else if 240 ≤ b ∧ b < 245 then ([], 3, b % 8)
  else ([65533], 0, 0)

/-- UTF-8 decoding with `need` continuation bytes outstanding for the code point bits `acc`.
A well-formed sequence gives its code point; a byte that can neither continue nor open a
sequence, or a sequence cut short, gives U+FFFD. -/
def v8.utf8Decode : Nat → Nat → List Nat → List Nat
  | 0, _, [] => []
  | _ + 1, _, [] => [65533]
  | 0, _, b :: rest =>
    (v8.utf8Lead b).1 ++ v8.utf8Decode (v8.utf8Lead b).2.1 (v8.utf8Lead b).2.2 rest
  | need + 1, acc, b :: rest =>
    if 128 ≤ b ∧ b < 192 then
      if need = 0 then v8.utf16Units (acc * 64 + b % 64) ++ v8.utf8Decode 0 0 rest
      else v8.utf8Decode need (acc * 64 + b % 64) rest
    else
      65533 :: ((v8.utf8Lead b).1 ++ v8.utf8Decode (v8.utf8Lead b).2.1 (v8.utf8Lead b).2.2 rest)

/-- Call `v8::String::NewFromUtf8(isolate, data, kNormal, size).ToLocalChecked()`: the string whose
code units are the UTF-8 decoding of the bytes. -/
def v8.NewFromUtf8 (data : StdString) : JSString := v8.utf8Decode 0 0 data

/-- Call `String::Utf8Length` with the flag `lead` telling whether the previous unit was a lead
surrogate: 1, 2 or 3 bytes per code unit by its size, a surrogate pair counting 4 in all. -/
def v8.utf8LengthFrom : Bool → List Nat → Nat
  | _, [] => 0
  | lead, u :: rest =>
    (if u < 128 then 1
     else if u < 2048 then 2
     else if lead ∧ 56320 ≤ u ∧ u < 57344 then 1
     else 3) + v8.utf8LengthFrom (decide (55296 ≤ u ∧ u < 56320)) rest

/-- Call `String::Utf8Length()`: the number of bytes of the UTF-8 encoding of the string. -/
def v8.Utf8Length (str : JSString) : Nat := v8.utf8LengthFrom false str

/-- Call `String::WriteOneByte(buffer)`: every code unit of the string is written as one byte (its
low 8 bits) from the start of the buffer, followed by a terminating 0; the rest of the buffer
is left as it was.  When the string fills the buffer the terminator lands on the terminator of
the `std::string`, outside its contents. -/
def v8.WriteOneByte (str : JSString) (buffer : List Nat) : List Nat :=
  ((str.map fun u => u % 256) ++ buffer.drop str.length).set str.length 0

/-- The read-out used by `getString` and `getMapKeys` (GluaV8.cpp 323-328, 358-363):
`result.resize(str->Utf8Length()); str->WriteOneByte(result.data())`. -/
def stringResult (str : JSString) : StdString :=
  let result := List.replicate (v8.Utf8Length str) 0
  (v8.WriteOneByte str result).take result.length

/-! ## Callable registry (GluaV8.cpp 60-77) -/

/-- Container call `std::unordered_map::emplace` on an association list: the entry is added
when the key is absent (`true`), and nothing changes when it is present (`false`). -/
def emplace {κ β : Type} [DecidableEq κ] (m : List (κ × β)) (k : κ) (v : β) :
    List (κ × β) × Bool :=
  if m.any (fun e => decide (e.1 = k)) then (m, false) else (m ++ [(k, v)], true)

/-- Container call `std::unordered_map::find`: the value stored under the key, if any. -/
def lookup {κ β : Type} [DecidableEq κ] (m : List (κ × β)) (k : κ) : Option β :=
  (m.find? fun e => decide (e.1 = k)).map Prod.snd

/-- Member `GluaV8::RegisterCallable`: `callable` is the address of the `ICallable` acquired
from the argument.  On a fresh name the registry gains the entry and the global template gains
a function template carrying that address; on a name already registered the call throws. -/
def GluaV8.RegisterCallable (s : GluaV8) (name : StdString) (callable : Nat) : Outcome Unit :=
  let pos := emplace s.m_registry name callable
  if pos.2 then
    .ok () { s with
      m_registry := pos.1,
      m_global_template := s.m_global_template ++ [(v8.NewFromUtf8 name, callable)] }
  else
    .throws (.V8Exception "Failed to insert callable in call to RegisterCallable")
      { s with m_registry := pos.1 }

/-! ## Native-call trampoline (GluaV8.cpp 562-592) -/

/-- The `ICallable` seam: `Call()` runs the native function against the engine it is bound
to, reading its arguments from the stack and pushing its result; `HasReturn()` tells whether
it pushes one. -/
structure ICallable where
  Call : GluaV8 → Outcome Unit
  HasReturn : Bool

/-- Statement `m_stack.back().Get(isolate)`: the top cell; undefined on an empty vector. -/
def GluaV8.back (s : GluaV8) : Outcome Cell :=
  match s.m_stack.getLast? with
  | some c => .ok c s
  | none => .undefinedBehaviour

/-- Statement `m_stack.pop_back()`: the top cell is removed; undefined on an empty vector. -/
def GluaV8.pop_back (s : GluaV8) : Outcome Unit :=
  match s.m_stack with
  | [] => .undefinedBehaviour
  | _ :: _ => .ok () { s with m_stack := s.m_stack.dropLast }

/-- The argument loop of the trampoline: `m_stack.emplace_back(isolate, info[i])` for `i` from
0 to `info.Length() - 1`. -/
def GluaV8.pushArguments (s : GluaV8) (info : List Value) : GluaV8 :=
  info.foldl (fun g v => g.emplace_back (some v)) s

/-- Function `call_callable_from_v8`: `callable` is the `ICallable` behind `info.Data()`, `info` the
script-supplied arguments, `glua_v8` the engine behind `isolate->GetData(0)`.  The value
returned is what `info.GetReturnValue().Set` was given, `none` when it was not called. -/
def call_callable_from_v8 (callable : ICallable) (info : List Value) (glua_v8 : GluaV8) :
    Outcome (Option Cell) :=
  let count : Int := info.length
  (callable.Call (glua_v8.pushArguments info)).andThen fun _ s1 =>
    if callable.HasReturn then
      s1.back.andThen fun ret_val s2 =>
        s2.pop_back.andThen fun _ s3 =>
          (s3.popOffStack (toSizeT count)).andThen fun _ s4 => .ok (some ret_val) s4
    else
      (s1.popOffStack (toSizeT count)).andThen fun _ s4 => .ok none s4

/-- A callable without parameters that pushes the `int` 5 as its result. -/
def pushFive : ICallable :=
  { Call := fun s => s.push_int32 5, HasReturn := true }

/-- A callable whose native function throws before it touches the stack. -/
def throwingCallable : ICallable :=
  { Call := fun s => .throws (.V8Exception "native failure") s, HasReturn := true }

/-! ## The V8 calls on objects -/

/-- Writing a property of a bag: the value is replaced in place when the key is present, and
the entry is added at the end when it is not. -/
def setProp (props : List (PropertyKey × Value)) (k : PropertyKey) (v : Value) :
    List (PropertyKey × Value) :=
  if props.any (fun e => decide (e.1 = k)) then
    props.map fun e => if e.1 = k then (k, v) else e
  else props ++ [(k, v)]

/-- The string a property key converts to: the decimal spelling of an index, the name
itself. -/
def v8.keyString (pk : PropertyKey) : JSString :=
  match pk with
  | .index i => (Nat.toDigits 10 i).map Char.toNat
  | .name str => str

/-- The number a string of decimal digits spells. -/
def v8.parseDecimal (str : JSString) : Nat :=
  str.foldl (fun acc d => acc * 10 + (d - 48)) 0

/-- The index below 2^32 that a string spells in canonical decimal form, if it does. -/
def v8.canonicalIndex (str : JSString) : Option Nat :=
  if str ≠ [] ∧ (str.all fun d => decide (48 ≤ d ∧ d < 58)) = true ∧
      v8.parseDecimal str < 4294967296 ∧
      v8.keyString (.index (v8.parseDecimal str)) = str
  then some (v8.parseDecimal str) else none

/-- The key that names the property spelled by a string. -/
def v8.stringKey (str : JSString) : PropertyKey :=
  match v8.canonicalIndex str with
  | some i => .index i
  | none => .name str

/-- The key a value denotes when it is used to name a property: given for a Number with an
integer value in `[0, 2^32)` and for a String.  Other values are named by their string
conversion, which is not represented. -/
def v8.toPropertyKey (v : Value) : Option PropertyKey :=
  match v with
  | .number n => if 0 ≤ n ∧ n < 4294967296 then some (.index n.toNat) else none
  | .string str => some (v8.stringKey str)
  | _ => none

/-- The string "length". -/
def lengthName : JSString := [108, 101, 110, 103, 116, 104]

/-- The string "__proto__". -/
def protoName : JSString := [95, 95, 112, 114, 111, 116, 111, 95, 95]

/-- Whether a write of the property is an ordinary data-property write: not the `length` of an
array, and not `__proto__`, which the engine's objects inherit as an accessor. -/
def plainWrite (obj : JSObject) (k : PropertyKey) : Bool :=
  match k with
  | .index _ => true
  | .name str => !((obj.isArray && decide (str = lengthName)) || decide (str = protoName))

/-- The object after `obj[k] = v`.  An array grows to hold an element written at an array
index (an index below 2^32 - 1) at or beyond its length. -/
def JSObject.write (obj : JSObject) (k : PropertyKey) (v : Value) : JSObject :=
  { obj with
    props := setProp obj.props k v,
    length :=
      match k with
      | .index i =>
        if obj.isArray ∧ i < 4294967295 ∧ obj.length ≤ i then i + 1 else obj.length
      | .name _ => obj.length }

/-- Allocation of a new heap object: its address is the next free one. -/
def GluaV8.alloc (s : GluaV8) (obj : JSObject) : Value × GluaV8 :=
  (.object s.heap.length, { s with heap := s.heap ++ [obj] })

/-- Call `v8::Array::New(isolate, length)`: a new array of the given length without elements; a
negative length gives length 0. -/
def v8.Array_New (s : GluaV8) (length : Int) : Value × GluaV8 :=
  s.alloc { isArray := true, length := (if 0 < length then length else 0).toNat, props := [] }

/-- Call `v8::Object::New(isolate)`: a new object without own properties. -/
def v8.Object_New (s : GluaV8) : Value × GluaV8 :=
  s.alloc { isArray := false, length := 0, props := [] }

/-- Call `target->Set(context, key, value).ToChecked()` after the unchecked
`v8::Local<v8::Object>::Cast` (or `<v8::Array>::Cast`) of `target`.  Any handle being empty, or
the target not being an object, is undefined behaviour. -/
def v8.SetChecked (target key value : Cell) (s : GluaV8) : Outcome Unit :=
  match target, key, value with
  | some (.object addr), some k, some v =>
    match s.heap[addr]?, v8.toPropertyKey k with
    | some obj, some pk =>
      if plainWrite obj pk then .ok () { s with heap := s.heap.set addr (obj.write pk v) }
      else .notModelled
    | some _, none => .notModelled
    | none, _ => .undefinedBehaviour
  | _, _, _ => .undefinedBehaviour

/-- Call `target->Get(context, key).ToLocalChecked()` after the unchecked cast of `target`: the
value of the own property, and undefined for an index that is not set.  A name that is not an
own property is looked up in the prototype chain, which is not represented. -/
def v8.GetChecked (target : Cell) (pk : PropertyKey) (s : GluaV8) : Outcome Value :=
  match target with
  | some (.object addr) =>
    match s.heap[addr]? with
    | some obj =>
      match lookup obj.props pk, pk with
      | some v, _ => .ok v s
      | none, .index _ => .ok .undefined s
      | none, .name _ => .notModelled
    | none => .undefinedBehaviour
  | _ => .undefinedBehaviour

/-- Call `v8::Local<v8::Array>::Cast(target)->Length()`: the length of an array; the unchecked cast
of anything else is undefined behaviour. -/
def v8.ArrayLength (target : Cell) (s : GluaV8) : Outcome Nat :=
  match target with
  | some (.object addr) =>
    match s.heap[addr]? with
    | some obj => if obj.isArray then .ok obj.length s else .undefinedBehaviour
    | none => .undefinedBehaviour
  | _ => .undefinedBehaviour

/-- Call `target->GetPropertyNames(context).ToLocalChecked()` with every key converted by
`ToString`: the keys of the own properties.  The order in which V8 lists them (indices first)
is not represented: the list is in insertion order. -/
def v8.PropertyNames (target : Cell) (s : GluaV8) : Outcome (List JSString) :=
  match target with
  | some (.object addr) =>
    match s.heap[addr]? with
    | some obj => .ok (obj.props.map fun e => v8.keyString e.1) s
    | none => .undefinedBehaviour
  | _ => .undefinedBehaviour

/-! ## Arrays and maps (GluaV8.cpp 190-234, 330-377) -/

/-- The body shared by the `push` overloads: `m_stack.emplace_back(isolate, v)` for the value
`v` the overload has built. -/
def GluaV8.pushValue (s : GluaV8) (v : Value) : Outcome Unit :=
  .ok () (s.emplace_back (some v))

/-- Member `GluaV8::push(std::string)` (and the `std::string_view` overload): the string decoded by
`NewFromUtf8`. -/
def GluaV8.push_string (s : GluaV8) (value : StdString) : Outcome Unit :=
  s.pushValue (.string (v8.NewFromUtf8 value))

/-- Member `GluaV8::pushArray`: `v8::Array::New(isolate, static_cast<int>(size_hint))`. -/
def GluaV8.pushArray (s : GluaV8) (size_hint : Nat) : Outcome Unit :=
  let r := v8.Array_New s (toInt32 size_hint)
  .ok () (r.2.emplace_back (some r.1))

/-- Member `GluaV8::pushStartMap`: `v8::Object::New(isolate)`; the hint is not used. -/
def GluaV8.pushStartMap (s : GluaV8) (_size_hint : Nat) : Outcome Unit :=
  let r := v8.Object_New s
  .ok () (r.2.emplace_back (some r.1))

/-- Member `GluaV8::arraySetFromStack`: the value and the index are taken off the stack, and the
index of the array now on top is set to the value. -/
def GluaV8.arraySetFromStack (s : GluaV8) : Outcome Unit :=
  s.back.andThen fun value s1 =>
  s1.pop_back.andThen fun _ s2 =>
  s2.back.andThen fun index s3 =>
  s3.pop_back.andThen fun _ s4 =>
  (s4.getAtStackPos (-1)).andThen fun array s5 =>
  v8.SetChecked array index value s5

/-- Member `GluaV8::mapSetFromStack`: the value and the key are taken off the stack, and the key of
the map now on top is set to the value. -/
def GluaV8.mapSetFromStack (s : GluaV8) : Outcome Unit :=
  s.back.andThen fun value s1 =>
  s1.pop_back.andThen fun _ s2 =>
  s2.back.andThen fun key s3 =>
  s3.pop_back.andThen fun _ s4 =>
  (s4.getAtStackPos (-1)).andThen fun map s5 =>
  v8.SetChecked map key value s5

/-- Member `GluaV8::getArraySize`. -/
def GluaV8.getArraySize (s : GluaV8) (stack_index : Int) : Outcome Nat :=
  (s.getAtStackPos stack_index).andThen v8.ArrayLength

/-- Member `GluaV8::getArrayValue`: the element at `static_cast<uint32_t>(index_into_array)` is
pushed. -/
def GluaV8.getArrayValue (s : GluaV8) (index_into_array : Nat) (stack_index_of_array : Int) :
    Outcome Unit :=
  (s.getAtStackPos stack_index_of_array).andThen fun array s1 =>
  (v8.GetChecked array (.index (toUInt32 index_into_array).toNat) s1).andThen fun v s2 =>
  s2.pushValue v

/-- Member `GluaV8::getMapKeys`: every property name, converted to a string and read out into a
`std::string`. -/
def GluaV8.getMapKeys (s : GluaV8) (stack_index : Int) : Outcome (List StdString) :=
  (s.getAtStackPos stack_index).andThen fun map s1 =>
  (v8.PropertyNames map s1).andThen fun map_keys s2 =>
  .ok (map_keys.map stringResult) s2

/-- Member `GluaV8::getMapValue`: the value under the key decoded by `NewFromUtf8` is pushed. -/
def GluaV8.getMapValue (s : GluaV8) (key : StdString) (stack_index_of_map : Int) :
    Outcome Unit :=
  (s.getAtStackPos stack_index_of_map).andThen fun map s1 =>
  (v8.GetChecked map (v8.stringKey (v8.NewFromUtf8 key)) s1).andThen fun v s2 =>
  s2.pushValue v

/-! ## The client sequences of the round-trip properties (spec §8) -/

/-- One step of filling an array: push the index, push the value, `arraySetFromStack`. -/
def GluaV8.setArrayElement (s : GluaV8) (index : Int) (v : Value) : Outcome Unit :=
  (s.push_int32 index).andThen fun _ s1 =>
  (s1.pushValue v).andThen fun _ s2 =>
  s2.arraySetFromStack

/-- The array round trip: `pushArray(size_hint)`, then indices 0, 1, 2 set to three values. -/
def GluaV8.buildArray3 (s : GluaV8) (size_hint : Nat) (v0 v1 v2 : Value) : Outcome Unit :=
  (s.pushArray size_hint).andThen fun _ s1 =>
  (s1.setArrayElement 0 v0).andThen fun _ s2 =>
  (s2.setArrayElement 1 v1).andThen fun _ s3 =>
  s3.setArrayElement 2 v2

/-- One step of filling a map: push the key, push the value, `mapSetFromStack`. -/
def GluaV8.setMapEntry (s : GluaV8) (key : StdString) (v : Value) : Outcome Unit :=
  (s.push_string key).andThen fun _ s1 =>
  (s1.pushValue v).andThen fun _ s2 =>
  s2.mapSetFromStack

/-- The map round trip: `pushStartMap(0)`, then "a" set to 1 and "b" set to 2. -/
def GluaV8.buildMapAB (s : GluaV8) : Outcome Unit :=
  (s.pushStartMap 0).andThen fun _ s1 =>
  (s1.setMapEntry [97] (v8.Int32_New 1)).andThen fun _ s2 =>
  s2.setMapEntry [98] (v8.Int32_New 2)

/-- Filling a map with a list of entries, one `setMapEntry` after the other. -/
def GluaV8.setMapEntries (s : GluaV8) : List (StdString × Value) → Outcome Unit
  | [] => .ok () s
  | e :: rest => (s.setMapEntry e.1 e.2).andThen fun _ s1 => s1.setMapEntries rest

/-- The general map round trip: `pushStartMap(0)`, then every entry set in turn. -/
def GluaV8.buildMap (s : GluaV8) (entries : List (StdString × Value)) : Outcome Unit :=
  (s.pushStartMap 0).andThen fun _ s1 => s1.setMapEntries entries

/-! ## Global slots (GluaV8.cpp 504-515) -/

/-- Container call `std::unordered_map::operator[]`: the handle stored under the key; when the
key is absent a default-constructed (empty) handle is first stored under it. -/
def subscript (m : List (StdString × Cell)) (k : StdString) : Cell × List (StdString × Cell) :=
  match lookup m k with
  | some c => (c, m)
  | none => (none, m ++ [(k, none)])

/-- Member `GluaV8::setGlobalFromStack`:
`m_global_values.emplace(name, Global(isolate, stack_value))` with the cell read by
`getAtStackPos`. -/
def GluaV8.setGlobalFromStack (s : GluaV8) (name : StdString) (stack_index : Int) :
    Outcome Unit :=
  (s.getAtStackPos stack_index).andThen fun stack_value s1 =>
  .ok () { s1 with m_global_values := (emplace s1.m_global_values name stack_value).1 }

/-- Member `GluaV8::pushGlobal`:
`m_stack.emplace_back(isolate, m_global_values[name].Get(isolate))`. -/
def GluaV8.pushGlobal (s : GluaV8) (name : StdString) : Outcome Unit :=
  let r := subscript s.m_global_values name
  .ok () (GluaV8.emplace_back { s with m_global_values := r.2 } r.1)

/-! ## Running a script (GluaV8.cpp 78-101) -/

/-- A compiled `v8::Script`.  `Run` is `script->Run(context)`: the script executes against the
engine, whose stack it reaches through the registered callables, and gives a
`MaybeLocal<Value>`, empty (`none`) when the script ended with an uncaught exception. -/
structure Script where
  Run : GluaV8 → Outcome Cell

/-- The script engine as `RunScript` uses it.  `Compile` is `v8::Script::Compile(context,
source)`, empty (`none`) when the source does not compile. -/
structure Engine where
  Compile : JSString → Option Script

/-- Member `GluaV8::RunScript`: compile with `ToLocalChecked`, run, and when the result is not empty
`m_stack.emplace_back(isolate, result.ToLocalChecked())`. -/
def GluaV8.RunScript (s : GluaV8) (engine : Engine) (script_data : StdString) : Outcome Unit :=
  let source := v8.NewFromUtf8 script_data
  match engine.Compile source with
  | none => .fatal
  | some script =>
    (script.Run s).andThen fun result s1 =>
      match result with
      | some v => .ok () (s1.emplace_back (some v))
      | none => .ok () s1

/-- The script that evaluates to a given value and calls nothing. -/
def constantScript (v : Value) : Script :=
  { Run := fun s => .ok (some v) s }

/-- The script that throws at once and calls nothing. -/
def throwingScript : Script :=
  { Run := fun s => .ok none s }

/-- An engine that knows two sources: "1", which evaluates to the number 1, and "throw 1",
which ends with an uncaught exception.  Every other source is a syntax error. -/
def sampleEngine : Engine :=
  { Compile := fun source =>
      if source = [49] then some (constantScript (.number 1))
      else if source = [116, 104, 114, 111, 119, 32, 49] then some throwingScript
      else none }

/-! ## Doubles, booleans and the remaining push overloads (GluaV8.cpp 108-117, 158-173) -/

/-- The Number that `v8::Number::New(isolate, value)` makes of a `double`, given by its 64
IEEE 754 bits: `number n` when the double is the integer `n` (zero meaning plus zero),
`fraction bits` for every other double, minus zero included. -/
def v8.Number_New (bits : Nat) : Value :=
  let sign := bits / 9223372036854775808 % 2
  let exp := bits / 4503599627370496 % 2048
  let man := bits % 4503599627370496
  let sig := 4503599627370496 + man
  if exp = 2047 then .fraction bits
  else if exp = 0 then (if man = 0 ∧ sign = 0 then .number 0 else .fraction bits)
  else if 1075 ≤ exp then
    .number (if sign = 0 then (sig * 2 ^ (exp - 1075) : Nat) else -(sig * 2 ^ (exp - 1075) : Nat))
  else if sig % 2 ^ (1075 - exp) = 0 then
    .number (if sign = 0 then (sig / 2 ^ (1075 - exp) : Nat) else -(sig / 2 ^ (1075 - exp) : Nat))
  else .fraction bits

/-- The position of the highest set bit of `n` among the lowest `fuel` bits (0 if none). -/
def highBit : Nat → Nat → Nat
  | 0, _ => 0
  | fuel + 1, n => if 2 ^ fuel ≤ n then fuel else highBit fuel n

/-- The conversion of a `float`, given by its 32 IEEE 754 bits, to the `double` of the same
value, given by its 64 bits. -/
def floatToDouble (bits : Nat) : Nat :=
  let sign := bits / 2147483648 % 2
  let exp := bits / 8388608 % 256
  let man := bits % 8388608
  if exp = 255 then sign * 9223372036854775808 + 2047 * 4503599627370496 + man * 536870912
  else if exp = 0 then
    if man = 0 then sign * 9223372036854775808
    else
      sign * 9223372036854775808 + (highBit 23 man + 874) * 4503599627370496
        + (man - 2 ^ highBit 23 man) * 2 ^ (52 - highBit 23 man)
  else sign * 9223372036854775808 + (exp + 896) * 4503599627370496 + man * 536870912

/-- Member `GluaV8::push(std::nullopt_t)`: a new `v8::Object` is pushed. -/
def GluaV8.push_nullopt (s : GluaV8) : Outcome Unit :=
  let r := v8.Object_New s
  .ok () (r.2.emplace_back (some r.1))

/-- Member `GluaV8::push(bool)`: `v8::Boolean::New(isolate, value)`. -/
def GluaV8.push_bool (s : GluaV8) (value : Bool) : Outcome Unit :=
  s.pushValue (.boolean value)

/-- Member `GluaV8::push(float)`: `v8::Number::New` of the `float` widened to `double`; the
argument is the bit pattern of the `float`. -/
def GluaV8.push_float (s : GluaV8) (value : Nat) : Outcome Unit :=
  s.pushValue (v8.Number_New (floatToDouble value))

/-- Member `GluaV8::push(double)`: `v8::Number::New`; the argument is the bit pattern of the
`double`. -/
def GluaV8.push_double (s : GluaV8) (value : Nat) : Outcome Unit :=
  s.pushValue (v8.Number_New value)

/-- Member `GluaV8::push(const char*)`: `NewFromUtf8` without a length reads the bytes up to
the terminating 0. -/
def GluaV8.push_char_pointer (s : GluaV8) (value : StdString) : Outcome Unit :=
  s.pushValue (.string (v8.NewFromUtf8 (value.takeWhile fun b => b != 0)))

/-- Member `GluaV8::push(std::string_view)`: as the `std::string` overload. -/
def GluaV8.push_string_view (s : GluaV8) (value : StdString) : Outcome Unit :=
  s.pushValue (.string (v8.NewFromUtf8 value))

/-! ## Type probes (GluaV8.cpp 385-503) -/

/-- Call `Value::IsNull`. -/
def v8.IsNull : Value → Bool
  | .null => true
  | _ => false

/-- Call `Value::IsBoolean`. -/
def v8.IsBoolean : Value → Bool
  | .boolean _ => true
  | _ => false

/-- Call `Value::IsInt32`: a Number whose value is an integer in `[-2^31, 2^31)` (and not
minus zero). -/
def v8.IsInt32 : Value → Bool
  | .number n => decide (-2147483648 ≤ n ∧ n < 2147483648)
  | _ => false

/-- Call `Value::IsUint32`: a Number whose value is an integer in `[0, 2^32)` (and not minus
zero). -/
def v8.IsUint32 : Value → Bool
  | .number n => decide (0 ≤ n ∧ n < 4294967296)
  | _ => false

/-- Call `Value::IsBigInt`. -/
def v8.IsBigInt : Value → Bool
  | .bigint _ => true
  | _ => false

/-- Call `Value::IsNumber`. -/
def v8.IsNumber : Value → Bool
  | .number _ => true
  | .fraction _ => true
  | _ => false

/-- Call `Value::IsString`. -/
def v8.IsString : Value → Bool
  | .string _ => true
  | _ => false

/-- Call `Value::IsObject`: plain objects and arrays alike. -/
def v8.IsObject : Value → Bool
  | .object _ => true
  | _ => false

/-- A probe `val->IsX()` made through the handle `val`: the answer for the value the handle
refers to; the call through an empty handle is undefined behaviour. -/
def v8.probe (p : Value → Bool) (val : Cell) (s : GluaV8) : Outcome Bool :=
  match val with
  | some v => .ok (p v) s
  | none => .undefinedBehaviour

/-- Call `val->IsArray()` through the handle `val`: whether the value is an object of the heap
that is an array. -/
def v8.IsArrayProbe (val : Cell) (s : GluaV8) : Outcome Bool :=
  match val with
  | some (.object addr) =>
    match s.heap[addr]? with
    | some obj => .ok obj.isArray s
    | none => .undefinedBehaviour
  | some _ => .ok false s
  | none => .undefinedBehaviour

/-- Member `GluaV8::isNull`. -/
def GluaV8.isNull (s : GluaV8) (stack_index : Int) : Outcome Bool :=
  (s.getAtStackPos stack_index).andThen (v8.probe v8.IsNull)

/-- Member `GluaV8::isBool`. -/
def GluaV8.isBool (s : GluaV8) (stack_index : Int) : Outcome Bool :=
  (s.getAtStackPos stack_index).andThen (v8.probe v8.IsBoolean)

/-- Member `GluaV8::isInt8`: `IsInt32`. -/
def GluaV8.isInt8 (s : GluaV8) (stack_index : Int) : Outcome Bool :=
  (s.getAtStackPos stack_index).andThen (v8.probe v8.IsInt32)

/-- Member `GluaV8::isInt16`: `IsInt32`. -/
def GluaV8.isInt16 (s : GluaV8) (stack_index : Int) : Outcome Bool :=
  (s.getAtStackPos stack_index).andThen (v8.probe v8.IsInt32)

/-- Member `GluaV8::isInt32`: `IsInt32`. -/
def GluaV8.isInt32 (s : GluaV8) (stack_index : Int) : Outcome Bool :=
  (s.getAtStackPos stack_index).andThen (v8.probe v8.IsInt32)

/-- Member `GluaV8::isInt64`: `IsBigInt`. -/
def GluaV8.isInt64 (s : GluaV8) (stack_index : Int) : Outcome Bool :=
  (s.getAtStackPos stack_index).andThen (v8.probe v8.IsBigInt)

/-- Member `GluaV8::isUInt8`: `IsUint32`. -/
def GluaV8.isUInt8 (s : GluaV8) (stack_index : Int) : Outcome Bool :=
  (s.getAtStackPos stack_index).andThen (v8.probe v8.IsUint32)

/-- Member `GluaV8::isUInt16`: `IsUint32`. -/
def GluaV8.isUInt16 (s : GluaV8) (stack_index : Int) : Outcome Bool :=
  (s.getAtStackPos stack_index).andThen (v8.probe v8.IsUint32)

/-- Member `GluaV8::isUInt32`: `IsUint32`. -/
def GluaV8.isUInt32 (s : GluaV8) (stack_index : Int) : Outcome Bool :=
  (s.getAtStackPos stack_index).andThen (v8.probe v8.IsUint32)

/-- Member `GluaV8::isUInt64`: `IsBigInt`. -/
def GluaV8.isUInt64 (s : GluaV8) (stack_index : Int) : Outcome Bool :=
  (s.getAtStackPos stack_index).andThen (v8.probe v8.IsBigInt)

/-- Member `GluaV8::isFloat`: `IsNumber`. -/
def GluaV8.isFloat (s : GluaV8) (stack_index : Int) : Outcome Bool :=
  (s.getAtStackPos stack_index).andThen (v8.probe v8.IsNumber)

/-- Member `GluaV8::isDouble`: `IsNumber`. -/
def GluaV8.isDouble (s : GluaV8) (stack_index : Int) : Outcome Bool :=
  (s.getAtStackPos stack_index).andThen (v8.probe v8.IsNumber)

/-- Member `GluaV8::isCharPointer`: `IsString`. -/
def GluaV8.isCharPointer (s : GluaV8) (stack_index : Int) : Outcome Bool :=
  (s.getAtStackPos stack_index).andThen (v8.probe v8.IsString)

/-- Member `GluaV8::isStringView`: `IsString`. -/
def GluaV8.isStringView (s : GluaV8) (stack_index : Int) : Outcome Bool :=
  (s.getAtStackPos stack_index).andThen (v8.probe v8.IsString)

/-- Member `GluaV8::isString`: `IsString`. -/
def GluaV8.isString (s : GluaV8) (stack_index : Int) : Outcome Bool :=
  (s.getAtStackPos stack_index).andThen (v8.probe v8.IsString)

/-- Member `GluaV8::isArray`: `IsArray`. -/
def GluaV8.isArray (s : GluaV8) (stack_index : Int) : Outcome Bool :=
  (s.getAtStackPos stack_index).andThen v8.IsArrayProbe

/-- Member `GluaV8::isMap`: `IsObject`. -/
def GluaV8.isMap (s : GluaV8) (stack_index : Int) : Outcome Bool :=
  (s.getAtStackPos stack_index).andThen (v8.probe v8.IsObject)

/-! ## Managed types (GluaV8.cpp 235-239, 378-384) -/

/-- Member `GluaV8::pushUserType`: the body only discards its two parameters.  `user_storage`
is the address of the storage block the `std::unique_ptr` owns; the block is released when the
parameter goes out of scope. -/
def GluaV8.pushUserType (s : GluaV8) (_unique_type_name : StdString) (_user_storage : Nat) :
    Outcome Unit :=
  .ok () s

/-- Member `GluaV8::getUserType`: the body discards its two parameters and returns `nullptr`
(`none`). -/
def GluaV8.getUserType (s : GluaV8) (_unique_type_name : StdString) (_stack_index : Int) :
    Outcome (Option Nat) :=
  .ok none s

/-! # Theorems -/

/-! ## Stack addressing -/

theorem toInt32_of_range (x : Int) (h1 : -2147483648 ≤ x) (h2 : x < 2147483648) :
    toInt32 x = x := by
  unfold toInt32; omega

theorem toUInt32_of_range (x : Int) (h1 : 0 ≤ x) (h2 : x < 4294967296) :
    toUInt32 x = x := by
  unfold toUInt32; omega

/-- A non-negative index below the depth reads the cell at that absolute slot. -/
theorem getAtStackPos_nonneg (s : GluaV8) (i : Int) (c : Cell)
    (h0 : 0 ≤ i) (hi : i < 2147483648) (hc : s.m_stack[i.toNat]? = some c) :
    s.getAtStackPos i = .ok c s := by
  have habs : s.absoluteIndex i = i := by
    unfold GluaV8.absoluteIndex; rw [if_neg (by omega)]
  have hsz : toSizeT i = i.toNat := by unfold toSizeT; omega
  simp only [GluaV8.getAtStackPos, GluaV8.stackAt, habs, hsz, hc]

/-- A negative index no further down than the depth reads the cell counted from the top. -/
theorem getAtStackPos_neg (s : GluaV8) (i : Int) (c : Cell)
    (hsize : s.m_stack.length < 2147483648)
    (h0 : i < 0) (hi : -(s.m_stack.length : Int) ≤ i)
    (hc : s.m_stack[((s.m_stack.length : Int) + i).toNat]? = some c) :
    s.getAtStackPos i = .ok c s := by
  have habs : s.absoluteIndex i = (s.m_stack.length : Int) + i := by
    unfold GluaV8.absoluteIndex; rw [if_pos h0]; unfold toInt32; omega
  have hsz : toSizeT ((s.m_stack.length : Int) + i) = ((s.m_stack.length : Int) + i).toNat := by
    unfold toSizeT; omega
  simp only [GluaV8.getAtStackPos, GluaV8.stackAt, habs, hsz, hc]

/-- An index outside `[-size, size)` makes `at` throw `std::out_of_range`. -/
theorem getAtStackPos_out_of_range (s : GluaV8) (i : Int)
    (hsize : s.m_stack.length < 2147483648)
    (hint : -2147483648 ≤ i ∧ i < 2147483648)
    (hout : (s.m_stack.length : Int) ≤ i ∨ i < -(s.m_stack.length : Int)) :
    s.getAtStackPos i = .throws .out_of_range s := by
  have hnone : s.m_stack[toSizeT (s.absoluteIndex i)]? = none := by
    rw [List.getElem?_eq_none_iff]
    unfold GluaV8.absoluteIndex toSizeT toInt32
    split <;> omega
  simp only [GluaV8.getAtStackPos, GluaV8.stackAt, hnone]

/-- After one `emplace_back`, index -1 reads the cell just pushed. -/
theorem getAtStackPos_top (s : GluaV8) (c : Cell) (hsize : s.m_stack.length + 1 < 2147483648) :
    (s.emplace_back c).getAtStackPos (-1) = .ok c (s.emplace_back c) := by
  apply getAtStackPos_neg
  · simpa [GluaV8.emplace_back] using hsize
  · omega
  · simp [GluaV8.emplace_back]
  · simp [GluaV8.emplace_back]

/-- C1. Index resolution of the virtual stack.  For a stack of depth `n` within the range of
`int` and an `int` index `i`: when `0 ≤ i < n`, `getAtStackPos i` returns the cell at absolute
slot `i`, and so does `getAtStackPos (i - n)`, the same cell addressed from the top; when
`-n ≤ i < 0` it returns the cell at absolute slot `n + i`; for every other `i` it throws
`std::out_of_range`, and so does every integer getter, the object being left as it was.  The
getters read through `getAtStackPos`: in range they return the conversion of that cell. -/
theorem stack_index_resolution (s : GluaV8) (i : Int)
    (hsize : s.m_stack.length < 2147483648)
    (hint : -2147483648 ≤ i ∧ i < 2147483648) :
    (0 ≤ i ∧ i < (s.m_stack.length : Int) →
      ∃ c, s.m_stack[i.toNat]? = some c ∧
        s.getAtStackPos i = .ok c s ∧
        s.getAtStackPos (i - (s.m_stack.length : Int)) = .ok c s ∧
        s.getInt32 i = v8.ToInt32Checked c s ∧
        s.getInt32 (i - (s.m_stack.length : Int)) = v8.ToInt32Checked c s ∧
        s.getUInt32 i = v8.ToUint32Checked c s ∧
        s.getUInt32 (i - (s.m_stack.length : Int)) = v8.ToUint32Checked c s) ∧
    (-(s.m_stack.length : Int) ≤ i ∧ i < 0 →
      ∃ c, s.m_stack[((s.m_stack.length : Int) + i).toNat]? = some c ∧
        s.getAtStackPos i = .ok c s ∧
        s.getInt32 i = v8.ToInt32Checked c s ∧
        s.getUInt32 i = v8.ToUint32Checked c s) ∧
    ((s.m_stack.length : Int) ≤ i ∨ i < -(s.m_stack.length : Int) →
      s.getAtStackPos i = .throws .out_of_range s ∧
      s.getInt8 i = .throws .out_of_range s ∧
      s.getInt16 i = .throws .out_of_range s ∧
      s.getInt32 i = .throws .out_of_range s ∧
      s.getInt64 i = .throws .out_of_range s ∧
      s.getUInt8 i = .throws .out_of_range s ∧
      s.getUInt16 i = .throws .out_of_range s ∧
      s.getUInt32 i = .throws .out_of_range s ∧
      s.getUInt64 i = .throws .out_of_range s) := by
  refine ⟨?_, ?_, ?_⟩
  · rintro ⟨h0, hlt⟩
    have hlt2 : i.toNat < s.m_stack.length := by omega
    refine ⟨s.m_stack[i.toNat], List.getElem?_eq_getElem hlt2, ?_⟩
    have hpos : s.getAtStackPos i = .ok s.m_stack[i.toNat] s :=
      getAtStackPos_nonneg s i _ h0 (by omega) (List.getElem?_eq_getElem hlt2)
    have hneg : s.getAtStackPos (i - (s.m_stack.length : Int)) = .ok s.m_stack[i.toNat] s := by
      apply getAtStackPos_neg s _ _ hsize (by omega) (by omega)
      have : ((s.m_stack.length : Int) + (i - (s.m_stack.length : Int))).toNat = i.toNat := by
        omega
      rw [this]; exact List.getElem?_eq_getElem hlt2
    simp only [GluaV8.getInt32, GluaV8.getUInt32, hpos, hneg, Outcome.andThen, and_self]
  · rintro ⟨hge, hneg⟩
    have hlt2 : ((s.m_stack.length : Int) + i).toNat < s.m_stack.length := by omega
    refine ⟨s.m_stack[((s.m_stack.length : Int) + i).toNat], List.getElem?_eq_getElem hlt2, ?_⟩
    have hget := getAtStackPos_neg s i _ hsize hneg hge (List.getElem?_eq_getElem hlt2)
    simp only [GluaV8.getInt32, GluaV8.getUInt32, hget, Outcome.andThen, and_self]
  · intro hout
    have hget := getAtStackPos_out_of_range s i hsize hint hout
    simp only [GluaV8.getInt8, GluaV8.getInt16, GluaV8.getInt32, GluaV8.getInt64,
      GluaV8.getUInt8, GluaV8.getUInt16, GluaV8.getUInt32, GluaV8.getUInt64, hget,
      Outcome.andThen, and_self]

/-- C1 at a stack of three cells: index 1 and index -2 both read the middle cell, index -1
reads the top cell, and index 3 throws. -/
theorem stack_index_resolution_witness :
    demoStack.getAtStackPos 1 = .ok (some (.boolean true)) demoStack ∧
    demoStack.getAtStackPos (-2) = .ok (some (.boolean true)) demoStack ∧
    demoStack.getAtStackPos (-1) = .ok (some (.number (-7))) demoStack ∧
    demoStack.getAtStackPos 3 = .throws .out_of_range demoStack := by
  obtain ⟨c, hc, h1, h2, -⟩ :=
    (stack_index_resolution demoStack 1 (by decide) (by decide)).1 (by decide)
  obtain ⟨c2, hc2, h3, -⟩ :=
    (stack_index_resolution demoStack (-1) (by decide) (by decide)).2.1 (by decide)
  have h4 := ((stack_index_resolution demoStack 3 (by decide) (by decide)).2.2 (by decide)).1
  have e1 : c = some (.boolean true) := by
    have : demoStack.m_stack[(1 : Int).toNat]? = some (some (.boolean true)) := by decide
    rw [this] at hc; exact (Option.some.inj hc).symm
  have e2 : c2 = some (.number (-7)) := by
    have : demoStack.m_stack[((demoStack.m_stack.length : Int) + (-1)).toNat]?
        = some (some (.number (-7))) := by decide
    rw [this] at hc2; exact (Option.some.inj hc2).symm
  subst e1 e2
  exact ⟨h1, h2, h3, h4⟩

/-! ## Integer round trip -/

/-- Reading index -1 with `ToInt32` right after a Number was pushed. -/
theorem getInt32_top_number (s : GluaV8) (n : Int) (hsize : s.m_stack.length + 1 < 2147483648) :
    ((s.emplace_back (some (.number n))).getAtStackPos (-1)).andThen v8.ToInt32Checked
      = .ok (toInt32 n) (s.emplace_back (some (.number n))) := by
  rw [getAtStackPos_top s _ hsize]; rfl

/-- Reading index -1 with `ToUint32` right after a Number was pushed. -/
theorem getUInt32_top_number (s : GluaV8) (n : Int) (hsize : s.m_stack.length + 1 < 2147483648) :
    ((s.emplace_back (some (.number n))).getAtStackPos (-1)).andThen v8.ToUint32Checked
      = .ok (toUInt32 n) (s.emplace_back (some (.number n))) := by
  rw [getAtStackPos_top s _ hsize]; rfl

/-- C2. Primitive round trip of the integer kinds.  On a stack that stays within the range of
`int`, `push(v)` appends one Number cell and the matching getter at index -1 returns: exactly
`v` for every `v` of `int8_t`, `int16_t`, `int32_t`, `uint8_t`, `uint16_t`, `uint32_t`; for an
`int64_t` `v` the value of its low 32 bits read as a signed 32-bit integer (congruent to `v`
modulo 2^32, in `[-2^31, 2^31)`, equal to `v` when `v` fits `int32_t`); for a `uint64_t` `v`
the value `v mod 2^32` (equal to `v` when `v` fits `uint32_t`).  The getter leaves the stack as
the push left it. -/
theorem integer_round_trip (s : GluaV8) (v : Int) (hsize : s.m_stack.length + 1 < 2147483648) :
    (-128 ≤ v ∧ v < 128 →
      ∃ s1, s.push_int8 v = .ok () s1 ∧ s1.m_stack = s.m_stack ++ [some (.number v)] ∧
        s1.getInt8 (-1) = .ok v s1) ∧
    (-32768 ≤ v ∧ v < 32768 →
      ∃ s1, s.push_int16 v = .ok () s1 ∧ s1.m_stack = s.m_stack ++ [some (.number v)] ∧
        s1.getInt16 (-1) = .ok v s1) ∧
    (-2147483648 ≤ v ∧ v < 2147483648 →
      ∃ s1, s.push_int32 v = .ok () s1 ∧ s1.m_stack = s.m_stack ++ [some (.number v)] ∧
        s1.getInt32 (-1) = .ok v s1) ∧
    (0 ≤ v ∧ v < 256 →
      ∃ s1, s.push_uint8 v = .ok () s1 ∧ s1.m_stack = s.m_stack ++ [some (.number v)] ∧
        s1.getUInt8 (-1) = .ok v s1) ∧
    (0 ≤ v ∧ v < 65536 →
      ∃ s1, s.push_uint16 v = .ok () s1 ∧ s1.m_stack = s.m_stack ++ [some (.number v)] ∧
        s1.getUInt16 (-1) = .ok v s1) ∧
    (0 ≤ v ∧ v < 4294967296 →
      ∃ s1, s.push_uint32 v = .ok () s1 ∧ s1.m_stack = s.m_stack ++ [some (.number v)] ∧
        s1.getUInt32 (-1) = .ok v s1) ∧
    (-9223372036854775808 ≤ v ∧ v < 9223372036854775808 →
      ∃ s1 r, s.push_int64 v = .ok () s1 ∧ s1.m_stack = s.m_stack ++ [some (.number r)] ∧
        s1.getInt64 (-1) = .ok r s1 ∧
        -2147483648 ≤ r ∧ r < 2147483648 ∧ (r - v) % 4294967296 = 0 ∧
        (-2147483648 ≤ v ∧ v < 2147483648 → r = v)) ∧
    (0 ≤ v ∧ v < 18446744073709551616 →
      ∃ s1 r, s.push_uint64 v = .ok () s1 ∧ s1.m_stack = s.m_stack ++ [some (.number r)] ∧
        s1.getUInt64 (-1) = .ok r s1 ∧
        r = v % 4294967296 ∧ (v < 4294967296 → r = v)) := by
  have hI := getInt32_top_number s
  have hU := getUInt32_top_number s
  refine ⟨?_, ?_, ?_, ?_, ?_, ?_, ?_, ?_⟩
  · rintro ⟨h1, h2⟩
    have e : toInt32 v = v := toInt32_of_range v (by omega) (by omega)
    refine ⟨s.emplace_back (some (.number v)), ?_, rfl, ?_⟩
    · simp only [GluaV8.push_int8, v8.Int32_New, e]
    · rw [GluaV8.getInt8, hI v hsize]
      simp only [Outcome.andThen]
      congr 1; unfold toInt8; omega
  · rintro ⟨h1, h2⟩
    have e : toInt32 v = v := toInt32_of_range v (by omega) (by omega)
    refine ⟨s.emplace_back (some (.number v)), ?_, rfl, ?_⟩
    · simp only [GluaV8.push_int16, v8.Int32_New, e]
    · rw [GluaV8.getInt16, hI v hsize]
      simp only [Outcome.andThen]
      congr 1; unfold toInt16; omega
  · rintro ⟨h1, h2⟩
    have e : toInt32 v = v := toInt32_of_range v (by omega) (by omega)
    refine ⟨s.emplace_back (some (.number v)), ?_, rfl, ?_⟩
    · simp only [GluaV8.push_int32, v8.Int32_New, e]
    · simp only [GluaV8.getInt32, hI v hsize, e]
  · rintro ⟨h1, h2⟩
    have e : toUInt32 v = v := toUInt32_of_range v (by omega) (by omega)
    refine ⟨s.emplace_back (some (.number v)), ?_, rfl, ?_⟩
    · simp only [GluaV8.push_uint8, v8.Uint32_New, e]
    · rw [GluaV8.getUInt8, hU v hsize]
      simp only [Outcome.andThen]
      congr 1; unfold toUInt8; omega
  · rintro ⟨h1, h2⟩
    have e : toUInt32 v = v := toUInt32_of_range v (by omega) (by omega)
    refine ⟨s.emplace_back (some (.number v)), ?_, rfl, ?_⟩
    · simp only [GluaV8.push_uint16, v8.Uint32_New, e]
    · rw [GluaV8.getUInt16, hU v hsize]
      simp only [Outcome.andThen]
      congr 1; unfold toUInt16; omega
  · rintro ⟨h1, h2⟩
    have e : toUInt32 v = v := toUInt32_of_range v (by omega) (by omega)
    refine ⟨s.emplace_back (some (.number v)), ?_, rfl, ?_⟩
    · simp only [GluaV8.push_uint32, v8.Uint32_New, e]
    · simp only [GluaV8.getUInt32, hU v hsize, e]
  · rintro -
    have e : toInt32 (toInt32 v) = toInt32 v := by unfold toInt32; omega
    refine ⟨s.emplace_back (some (.number (toInt32 v))), toInt32 v, ?_, rfl, ?_, ?_, ?_, ?_, ?_⟩
    · simp only [GluaV8.push_int64, v8.Int32_New, e]
    · simp only [GluaV8.getInt64, hI (toInt32 v) hsize, e]
    · unfold toInt32; omega
    · unfold toInt32; omega
    · unfold toInt32; omega
    · rintro ⟨h1, h2⟩; exact toInt32_of_range v h1 h2
  · rintro ⟨h1, -⟩
    have e : toUInt32 (toUInt32 v) = toUInt32 v := by unfold toUInt32; omega
    refine ⟨s.emplace_back (some (.number (toUInt32 v))), toUInt32 v, ?_, rfl, ?_, rfl, ?_⟩
    · simp only [GluaV8.push_uint64, v8.Uint32_New, e]
    · simp only [GluaV8.getUInt64, hU (toUInt32 v) hsize, e]
    · intro h2; exact toUInt32_of_range v h1 h2

/-- C2 at concrete values: -5 as `int8_t` and 200 as `uint8_t` come back unchanged, and the
`int64_t` 2^32 + 7 comes back as 7. -/
theorem integer_round_trip_witness :
    (∃ s1, demoStack.push_int8 (-5) = .ok () s1 ∧ s1.getInt8 (-1) = .ok (-5) s1) ∧
    (∃ s1, demoStack.push_uint8 200 = .ok () s1 ∧ s1.getUInt8 (-1) = .ok 200 s1) ∧
    (∃ s1, demoStack.push_int64 4294967303 = .ok () s1 ∧ s1.getInt64 (-1) = .ok 7 s1) := by
  refine ⟨?_, ?_, ?_⟩
  · obtain ⟨s1, h1, -, h2⟩ := (integer_round_trip demoStack (-5) (by decide)).1 (by decide)
    exact ⟨s1, h1, h2⟩
  · obtain ⟨s1, h1, -, h2⟩ :=
      (integer_round_trip demoStack 200 (by decide)).2.2.2.1 (by decide)
    exact ⟨s1, h1, h2⟩
  · obtain ⟨s1, r, h1, -, h2, h3, h4, h5, -⟩ :=
      (integer_round_trip demoStack 4294967303 (by decide)).2.2.2.2.2.2.1 (by decide)
    have : r = 7 := by omega
    subst this
    exact ⟨s1, h1, h2⟩

/-! ## popOffStack -/

/-- Calling `popOffStack` with a count no larger than the depth keeps the bottom cells. -/
theorem popOffStack_eq_take (s : GluaV8) (n : Nat)
    (hvec : s.m_stack.length ≤ vectorMaxSize) (hn : n ≤ s.m_stack.length) :
    s.popOffStack n = .ok () { s with m_stack := s.m_stack.take (s.m_stack.length - n) } := by
  have hsz : toSizeT ((s.m_stack.length : Int) - (n : Int)) = s.m_stack.length - n := by
    unfold toSizeT; unfold vectorMaxSize at hvec; omega
  unfold GluaV8.popOffStack GluaV8.resize
  rw [hsz, if_pos (Nat.sub_le _ _)]

/-- C3. `popOffStack(n)` on a stack of depth `d` with `n ≤ d` returns, and leaves a stack of
depth `d - n` whose cells are the bottom `d - n` cells of the original, in the same order: the
original stack is what remains followed by the `n` removed top cells.  Nothing else of the
object changes, and `popOffStack(0)` leaves the object as it was. -/
theorem popOffStack_decreases_depth (s : GluaV8) (n : Nat)
    (hvec : s.m_stack.length ≤ vectorMaxSize) (hn : n ≤ s.m_stack.length) :
    ∃ s1, s.popOffStack n = .ok () s1 ∧
      s1.m_stack.length = s.m_stack.length - n ∧
      (∀ i, i < s.m_stack.length - n → s1.m_stack[i]? = s.m_stack[i]?) ∧
      (∃ top, top.length = n ∧ s.m_stack = s1.m_stack ++ top) ∧
      s1.heap = s.heap ∧ s1.m_global_values = s.m_global_values ∧
      s1.m_registry = s.m_registry ∧ s1.m_global_template = s.m_global_template ∧
      (n = 0 → s1 = s) := by
  refine ⟨_, popOffStack_eq_take s n hvec hn, ?_, ?_, ?_, rfl, rfl, rfl, rfl, ?_⟩
  · simp only [List.length_take]; omega
  · intro i hi
    simp only [List.getElem?_take, if_pos hi]
  · refine ⟨s.m_stack.drop (s.m_stack.length - n), ?_, ?_⟩
    · simp only [List.length_drop]; omega
    · simp only [List.take_append_drop]
  · intro h0
    subst h0
    simp only [Nat.sub_zero, List.take_length]

/-- C3 at a stack of three cells: popping two leaves the bottom cell. -/
theorem popOffStack_decreases_depth_witness :
    ∃ s1, demoStack.popOffStack 2 = .ok () s1 ∧ s1.m_stack = [some (.number 10)] := by
  obtain ⟨s1, h1, -, h3, -⟩ :=
    popOffStack_decreases_depth demoStack 2 (by decide) (by decide)
  refine ⟨s1, h1, ?_⟩
  have e : demoStack.popOffStack 2
      = .ok () { demoStack with m_stack := [some (.number 10)] } := by decide
  rw [e] at h1
  injection h1 with _ h1
  rw [← h1]

/-! ## Callable registry -/

/-- A key is absent from an association list exactly when no entry carries it. -/
theorem lookup_eq_none_iff {κ β : Type} [DecidableEq κ] (m : List (κ × β)) (k : κ) :
    lookup m k = none ↔ m.any (fun e => decide (e.1 = k)) = false := by
  unfold lookup
  induction m with
  | nil => simp
  | cons e m ih =>
    by_cases h : e.1 = k
    · simp [List.find?, h]
    · simp only [List.find?, h, decide_False, List.any_cons, Bool.false_or]
      exact ih

/-- Looking up in a list extended at the end: earlier entries win. -/
theorem lookup_append_singleton {κ β : Type} [DecidableEq κ] (m : List (κ × β)) (k k2 : κ)
    (v : β) :
    lookup (m ++ [(k, v)]) k2 =
      match lookup m k2 with
      | some w => some w
      | none => if k = k2 then some v else none := by
  unfold lookup
  induction m with
  | nil =>
    by_cases h : k = k2
    · simp [List.find?, h]
    · simp [List.find?, h]
  | cons e m ih =>
    by_cases h : e.1 = k2
    · simp [List.find?, h]
    · simp only [List.cons_append, List.find?, h, decide_False]
      exact ih

/-- C4. Duplicate registration.  On a registry that does not contain `name`,
`RegisterCallable(name, c1)` returns and the registry maps `name` to `c1`, every other name
being mapped as before; a following `RegisterCallable(name, c2)` throws the registration
exception and leaves the whole object, the registry included, exactly as the first call left
it. -/
theorem RegisterCallable_duplicate (s : GluaV8) (name : StdString) (c1 c2 : Nat)
    (hfresh : lookup s.m_registry name = none) :
    ∃ s1, s.RegisterCallable name c1 = .ok () s1 ∧
      s1.m_registry = s.m_registry ++ [(name, c1)] ∧
      lookup s1.m_registry name = some c1 ∧
      (∀ other, other ≠ name → lookup s1.m_registry other = lookup s.m_registry other) ∧
      s1.m_stack = s.m_stack ∧
      s1.RegisterCallable name c2 =
        .throws (.V8Exception "Failed to insert callable in call to RegisterCallable") s1 := by
  have hany := (lookup_eq_none_iff s.m_registry name).mp hfresh
  have hfirst : emplace s.m_registry name c1 = (s.m_registry ++ [(name, c1)], true) := by
    unfold emplace; rw [hany]; rfl
  have hlook : lookup (s.m_registry ++ [(name, c1)]) name = some c1 := by
    rw [lookup_append_singleton, hfresh]; simp
  have hany2 : (s.m_registry ++ [(name, c1)]).any (fun e => decide (e.1 = name)) = true := by
    cases h : (s.m_registry ++ [(name, c1)]).any (fun e => decide (e.1 = name)) with
    | true => rfl
    | false =>
      rw [← lookup_eq_none_iff, hlook] at h
      exact absurd h (by simp)
  have hsecond : emplace (s.m_registry ++ [(name, c1)]) name c2
      = (s.m_registry ++ [(name, c1)], false) := by
    unfold emplace; rw [hany2]; rfl
  refine ⟨{ s with
      m_registry := s.m_registry ++ [(name, c1)],
      m_global_template := s.m_global_template ++ [(v8.NewFromUtf8 name, c1)] },
    ?_, rfl, hlook, ?_, rfl, ?_⟩
  · unfold GluaV8.RegisterCallable
    simp only [hfirst, if_true]
  · intro other hne
    show lookup (s.m_registry ++ [(name, c1)]) other = lookup s.m_registry other
    rw [lookup_append_singleton]
    cases lookup s.m_registry other with
    | some w => rfl
    | none => simp [Ne.symm hne]
  · unfold GluaV8.RegisterCallable
    simp only [hsecond, Bool.false_eq_true, if_false]

/-- C4 on an empty registry: the name "f" is registered to the callable at address 1, and a
second registration to the callable at address 2 throws and changes nothing. -/
theorem RegisterCallable_duplicate_witness :
    ∃ s1, emptyGlua.RegisterCallable [102] 1 = .ok () s1 ∧
      s1.m_registry = [([102], 1)] ∧
      s1.RegisterCallable [102] 2 =
        .throws (.V8Exception "Failed to insert callable in call to RegisterCallable") s1 := by
  obtain ⟨s1, h1, h2, -, -, -, h3⟩ := RegisterCallable_duplicate emptyGlua [102] 1 2 (by decide)
  exact ⟨s1, h1, h2, h3⟩

/-! ## Native-call trampoline -/

/-- The argument loop appends the arguments in order and touches nothing else. -/
theorem pushArguments_eq (s : GluaV8) (info : List Value) :
    s.pushArguments info = { s with m_stack := s.m_stack ++ info.map some } := by
  unfold GluaV8.pushArguments
  induction info generalizing s with
  | nil => simp
  | cons v rest ih =>
    rw [List.foldl_cons, ih]
    simp [GluaV8.emplace_back]

/-- The top cell of a stack that ends in `c`. -/
theorem back_append_singleton (s : GluaV8) (l : List Cell) (c : Cell)
    (h : s.m_stack = l ++ [c]) : s.back = .ok c s := by
  unfold GluaV8.back; rw [h, List.getLast?_append]; rfl

/-- Removing the top cell of a stack that ends in `c`. -/
theorem pop_back_append_singleton (s : GluaV8) (l : List Cell) (c : Cell)
    (h : s.m_stack = l ++ [c]) : s.pop_back = .ok () { s with m_stack := l } := by
  unfold GluaV8.pop_back
  rw [h, List.dropLast_concat]
  cases l <;> rfl

/-- C5. Trampoline stack balance.  Let the stack have depth `d` and let the script pass the
arguments `info` (`N` of them).  The trampoline hands `Call` a stack that is the original one
followed by the arguments in left-to-right order, argument `i` at absolute slot `d + i`.  If
`Call` returns leaving that stack in place with exactly one more cell `r` on top when
`HasReturn` is true, and no more cell when it is false, then the trampoline returns, gives the
script `r` as the return value in the first case and sets none in the second, and leaves the
stack with its original `d` cells, the rest of the object being as `Call` left it. -/
theorem trampoline_stack_balance (callable : ICallable) (info : List Value) (s post : GluaV8)
    (r : Cell)
    (hvec : post.m_stack.length ≤ vectorMaxSize)
    (hcall : callable.Call (s.pushArguments info) = .ok () post)
    (hstack : post.m_stack =
      (s.m_stack ++ info.map some) ++ (if callable.HasReturn then [r] else [])) :
    (s.pushArguments info).m_stack = s.m_stack ++ info.map some ∧
    (∀ i (hi : i < info.length),
      (s.pushArguments info).m_stack[s.m_stack.length + i]? = some (some info[i])) ∧
    call_callable_from_v8 callable info s
      = .ok (if callable.HasReturn then some r else none) { post with m_stack := s.m_stack } ∧
    ({ post with m_stack := s.m_stack } : GluaV8).m_stack.length = s.m_stack.length := by
  have hpush := pushArguments_eq s info
  have hsz : toSizeT ((info.length : Nat) : Int) = info.length := by
    have hle : info.length ≤ post.m_stack.length := by
      rw [hstack]; simp only [List.length_append, List.length_map]; omega
    unfold vectorMaxSize at hvec
    unfold toSizeT; omega
  refine ⟨by rw [hpush], ?_, ?_, rfl⟩
  · intro i hi
    rw [hpush]
    show (s.m_stack ++ info.map some)[s.m_stack.length + i]? = some (some info[i])
    rw [List.getElem?_append_right (Nat.le_add_right _ _)]
    simp [hi]
  · unfold call_callable_from_v8
    simp only [hcall, Outcome.andThen, hsz]
    cases hret : callable.HasReturn with
    | true =>
      rw [hret] at hstack
      simp only [if_true] at hstack ⊢
      rw [back_append_singleton post _ r hstack]
      simp only []
      rw [pop_back_append_singleton post _ r hstack]
      simp only []
      have hpop := popOffStack_eq_take
        ({ post with m_stack := s.m_stack ++ info.map some } : GluaV8) info.length
        (by
          have : post.m_stack.length = (s.m_stack ++ info.map some).length + 1 := by
            rw [hstack]; simp only [List.length_append, List.length_singleton]
          show (s.m_stack ++ info.map some).length ≤ vectorMaxSize
          omega)
        (by simp)
      rw [hpop]
      simp
    | false =>
      rw [hret] at hstack
      simp only [Bool.false_eq_true, if_false, List.append_nil] at hstack ⊢
      have hpop := popOffStack_eq_take post info.length hvec (by rw [hstack]; simp)
      rw [hpop, hstack]
      simp

/-- C5 with the callable that pushes 5, called by a script with two arguments on a stack of
three cells: the script receives 5 and the stack is the original three cells again. -/
theorem trampoline_stack_balance_witness :
    call_callable_from_v8 pushFive [.number 1, .string [120]] demoStack
      = .ok (some (some (.number 5))) demoStack := by
  have h := (trampoline_stack_balance pushFive [.number 1, .string [120]] demoStack
    { demoStack with m_stack := demoStack.m_stack ++
        [some (.number 1), some (.string [120]), some (.number 5)] }
    (some (.number 5)) (by decide) (by decide) (by decide)).2.2.1
  exact h

/-- C6, counterexample.  A script calls, with one argument and on an empty stack, a callable
whose native function throws: the exception leaves the trampoline with the argument cell still
on the stack, at depth 1 instead of the depth 0 it had before the call. -/
theorem trampoline_failure_counterexample :
    call_callable_from_v8 throwingCallable [.number 1] emptyGlua
      = .throws (.V8Exception "native failure")
          { emptyGlua with m_stack := [some (.number 1)] } ∧
    ({ emptyGlua with m_stack := [some (.number 1)] } : GluaV8).m_stack.length
      ≠ emptyGlua.m_stack.length := by
  constructor
  · rfl
  · decide

/-- C6, amended.  When the callable's `Call` throws, the trampoline passes the exception on
and pops nothing: the object is left exactly as `Call` left it at the throw.  So if `Call`
threw with the stack as it received it, the `N` argument cells are still there and the depth
is `d + N`; the stack is back at depth `d` only when `Call` returns. -/
theorem trampoline_failure_keeps_arguments (callable : ICallable) (info : List Value)
    (s post : GluaV8) (e : Exn)
    (hcall : callable.Call (s.pushArguments info) = .throws e post) :
    call_callable_from_v8 callable info s = .throws e post ∧
    (post.m_stack = (s.pushArguments info).m_stack →
      post.m_stack = s.m_stack ++ info.map some ∧
      post.m_stack.length = s.m_stack.length + info.length) := by
  constructor
  · unfold call_callable_from_v8
    simp only [hcall, Outcome.andThen]
  · intro h
    rw [h, pushArguments_eq]
    simp

/-- C6, amended, at the throwing callable called with two arguments on a stack of three
cells: five cells are left. -/
theorem trampoline_failure_keeps_arguments_witness :
    call_callable_from_v8 throwingCallable [.number 1, .number 2] demoStack
      = .throws (.V8Exception "native failure")
          { demoStack with m_stack := demoStack.m_stack ++ [some (.number 1), some (.number 2)] } :=
  (trampoline_failure_keeps_arguments throwingCallable [.number 1, .number 2] demoStack
    { demoStack with m_stack := demoStack.m_stack ++ [some (.number 1), some (.number 2)] }
    (.V8Exception "native failure") rfl).1

/-! ## Arrays -/

/-- The three-cell protocol: with the container, the key and the value as the top three cells,
`arraySetFromStack` takes the value and the key off the stack and writes the property of the
container, which stays on top. -/
theorem arraySetFromStack_eq (t : GluaV8) (base : List Cell) (addr : Nat) (obj : JSObject)
    (k v : Value) (pk : PropertyKey)
    (hstack : t.m_stack = base ++ [some (.object addr), some k, some v])
    (hheap : t.heap[addr]? = some obj)
    (hkey : v8.toPropertyKey k = some pk)
    (hplain : plainWrite obj pk = true)
    (hsize : base.length + 1 < 2147483648) :
    t.arraySetFromStack = .ok ()
      { t with m_stack := base ++ [some (.object addr)],
               heap := t.heap.set addr (obj.write pk v) } := by
  have h1 : t.m_stack = (base ++ [some (.object addr), some k]) ++ [some v] := by
    rw [hstack]; simp
  have h2 : ({ t with m_stack := base ++ [some (.object addr), some k] } : GluaV8).m_stack
      = (base ++ [some (.object addr)]) ++ [some k] := by simp
  have h3 := getAtStackPos_top { t with m_stack := base } (some (.object addr)) hsize
  unfold GluaV8.arraySetFromStack
  rw [back_append_singleton t _ _ h1]
  simp only [Outcome.andThen]
  rw [pop_back_append_singleton t _ _ h1]
  simp only []
  rw [back_append_singleton _ _ _ h2]
  simp only []
  rw [pop_back_append_singleton _ _ _ h2]
  simp only []
  simp only [GluaV8.emplace_back] at h3
  rw [h3]
  simp only [v8.SetChecked, hheap, hkey, hplain, if_true]

/-- The array written at indices 0, 1 and 2 in turn. -/
theorem write3 (len : Nat) (v0 v1 v2 : Value) :
    ((({ isArray := true, length := len, props := [] } : JSObject).write (.index 0) v0).write
        (.index 1) v1).write (.index 2) v2
      = { isArray := true, length := max 3 len,
          props := [(.index 0, v0), (.index 1, v1), (.index 2, v2)] } := by
  simp only [JSObject.write, setProp, List.any_nil, List.nil_append, List.any_cons,
    Bool.false_eq_true, if_false, Bool.or_false, decide_eq_true_eq, PropertyKey.index.injEq,
    List.cons_append, List.singleton_append, true_and, Nat.zero_ne_one, OfNat.zero_ne_ofNat,
    OfNat.one_ne_ofNat, Bool.or_self, decide_False]
  congr 1
  repeat' split
  all_goals omega

/-- One step of filling a container that is on top of the stack: the property is written, and
the stack is as before the step. -/
theorem setArrayElement_eq (t : GluaV8) (base : List Cell) (addr : Nat) (obj : JSObject)
    (i : Int) (v : Value)
    (hi : 0 ≤ i ∧ i < 2147483648)
    (hstack : t.m_stack = base ++ [some (.object addr)])
    (hheap : t.heap[addr]? = some obj)
    (hsize : base.length + 1 < 2147483648) :
    t.setArrayElement i v
      = .ok () { t with heap := t.heap.set addr (obj.write (.index i.toNat) v) } := by
  have hnum : v8.Int32_New i = .number i := by
    unfold v8.Int32_New; rw [toInt32_of_range _ (by omega) (by omega)]
  have hkey : v8.toPropertyKey (.number i) = some (.index i.toNat) := by
    show (if 0 ≤ i ∧ i < 4294967296 then some (PropertyKey.index i.toNat) else none) = _
    rw [if_pos ⟨by omega, by omega⟩]
  unfold GluaV8.setArrayElement GluaV8.push_int32 GluaV8.pushValue
  simp only [Outcome.andThen, hnum]
  rw [arraySetFromStack_eq ((t.emplace_back (some (.number i))).emplace_back (some v))
    base addr obj (.number i) v (.index i.toNat)
    (by simp [GluaV8.emplace_back, hstack]) hheap hkey rfl hsize]
  simp [GluaV8.emplace_back, hstack]

/-- One step of filling the container most recently allocated, on top of the stack. -/
theorem setArrayElement_newest (s : GluaV8) (obj : JSObject) (i : Int) (v : Value)
    (hi : 0 ≤ i ∧ i < 2147483648) (hsize : s.m_stack.length + 1 < 2147483648) :
    GluaV8.setArrayElement
        { s with heap := s.heap ++ [obj],
                 m_stack := s.m_stack ++ [some (.object s.heap.length)] } i v
      = .ok () { s with heap := s.heap ++ [obj.write (.index i.toNat) v],
                        m_stack := s.m_stack ++ [some (.object s.heap.length)] } := by
  rw [setArrayElement_eq _ s.m_stack s.heap.length obj i v hi rfl
    (List.getElem?_concat_length s.heap obj) hsize]
  simp only [List.set_append_right _ _ (Nat.le_refl _), Nat.sub_self, List.set_cons_zero]

/-- What `buildArray3` leaves: the stack with one more cell, the new array, whose elements 0, 1
and 2 are the three values and whose length is 3 or, if larger, the length it was created
with. -/
theorem buildArray3_eq (s : GluaV8) (h : Nat) (v0 v1 v2 : Value)
    (hsize : s.m_stack.length + 1 < 2147483648) :
    s.buildArray3 h v0 v1 v2 = .ok ()
      { s with
        m_stack := s.m_stack ++ [some (.object s.heap.length)],
        heap := s.heap ++ [{ isArray := true, length := max 3 (toInt32 h).toNat,
                             props := [(.index 0, v0), (.index 1, v1), (.index 2, v2)] }] } := by
  have hlen : (if 0 < toInt32 (h : Int) then toInt32 (h : Int) else 0).toNat
      = (toInt32 (h : Int)).toNat := by
    split <;> omega
  unfold GluaV8.buildArray3 GluaV8.pushArray v8.Array_New GluaV8.alloc
  simp only [Outcome.andThen, GluaV8.emplace_back, hlen]
  rw [setArrayElement_newest s _ 0 v0 (by omega) hsize]
  simp only []
  rw [setArrayElement_newest s _ 1 v1 (by omega) hsize]
  simp only []
  rw [setArrayElement_newest s _ 2 v2 (by omega) hsize]
  have e2 : (2 : Int).toNat = 2 := rfl
  simp only [Int.toNat_zero, Int.toNat_one, e2, write3]

/-- The size of the array most recently allocated, on top of the stack. -/
theorem getArraySize_newest (s : GluaV8) (obj : JSObject) (harr : obj.isArray = true)
    (hsize : s.m_stack.length + 1 < 2147483648) :
    GluaV8.getArraySize
        { s with heap := s.heap ++ [obj],
                 m_stack := s.m_stack ++ [some (.object s.heap.length)] } (-1)
      = .ok obj.length
          { s with heap := s.heap ++ [obj],
                   m_stack := s.m_stack ++ [some (.object s.heap.length)] } := by
  have htop := getAtStackPos_top { s with heap := s.heap ++ [obj] }
    (some (.object s.heap.length)) hsize
  simp only [GluaV8.emplace_back] at htop
  unfold GluaV8.getArraySize
  rw [htop]
  simp only [Outcome.andThen, v8.ArrayLength, List.getElem?_concat_length, harr, if_true]

/-- Reading a set element of the array most recently allocated, on top of the stack. -/
theorem getArrayValue_newest (s : GluaV8) (obj : JSObject) (i : Nat) (v : Value)
    (hi : i < 4294967296) (hlook : lookup obj.props (.index i) = some v)
    (hsize : s.m_stack.length + 1 < 2147483648) :
    GluaV8.getArrayValue
        { s with heap := s.heap ++ [obj],
                 m_stack := s.m_stack ++ [some (.object s.heap.length)] } i (-1)
      = .ok ()
          (GluaV8.emplace_back
            { s with heap := s.heap ++ [obj],
                     m_stack := s.m_stack ++ [some (.object s.heap.length)] } (some v)) := by
  have htop := getAtStackPos_top { s with heap := s.heap ++ [obj] }
    (some (.object s.heap.length)) hsize
  simp only [GluaV8.emplace_back] at htop
  have hidx : (toUInt32 (i : Int)).toNat = i := by unfold toUInt32; omega
  unfold GluaV8.getArrayValue
  rw [htop]
  simp only [Outcome.andThen, v8.GetChecked, List.getElem?_concat_length, hidx, hlook,
    GluaV8.pushValue]

/-- C7, counterexample.  With `size_hint` 5 the array is created with length 5, and after the
elements 0, 1 and 2 are set `getArraySize(-1)` returns 5, not 3. -/
theorem array_size_counterexample :
    ∃ s3, emptyGlua.buildArray3 5 (.number 10) (.number 20) (.number 30) = .ok () s3 ∧
      s3.getArraySize (-1) = .ok 5 s3 ∧
      s3.getArraySize (-1) ≠ .ok 3 s3 := by
  refine ⟨_, rfl, ?_, ?_⟩ <;> decide

/-- C7, amended.  From a stack of depth `d` (within the range of `int`), `pushArray(h)`
followed by (push index `i`, push value `v_i`, `arraySetFromStack`) for `i = 0, 1, 2` returns
and leaves the stack at depth `d + 1` with the new array on top; `getArraySize(-1)` then
returns the larger of 3 and the length the array was created with, which is
`static_cast<int>(h)` when that is positive and 0 otherwise: it returns 3 when `h ≤ 3`, and `h`
when `3 ≤ h < 2^31`; and for each `i`, `getArrayValue(i, -1)` pushes one new top cell holding
`v_i`. -/
theorem array_round_trip (s : GluaV8) (h : Nat) (v0 v1 v2 : Value)
    (hsize : s.m_stack.length + 1 < 2147483648) :
    ∃ s3, s.buildArray3 h v0 v1 v2 = .ok () s3 ∧
      s3.m_stack = s.m_stack ++ [some (.object s.heap.length)] ∧
      s3.m_stack.length = s.m_stack.length + 1 ∧
      s3.getArraySize (-1) = .ok (max 3 (toInt32 h).toNat) s3 ∧
      (h ≤ 3 → s3.getArraySize (-1) = .ok 3 s3) ∧
      (3 ≤ h ∧ h < 2147483648 → s3.getArraySize (-1) = .ok h s3) ∧
      s3.getArrayValue 0 (-1) = .ok () (s3.emplace_back (some v0)) ∧
      s3.getArrayValue 1 (-1) = .ok () (s3.emplace_back (some v1)) ∧
      s3.getArrayValue 2 (-1) = .ok () (s3.emplace_back (some v2)) := by
  have hsize3 := getArraySize_newest s
    { isArray := true, length := max 3 (toInt32 h).toNat,
      props := [(.index 0, v0), (.index 1, v1), (.index 2, v2)] } rfl hsize
  refine ⟨_, buildArray3_eq s h v0 v1 v2 hsize, rfl, by simp, hsize3, ?_, ?_,
    getArrayValue_newest s _ 0 v0 (by omega) (by simp [lookup, List.find?]) hsize,
    getArrayValue_newest s _ 1 v1 (by omega) (by simp [lookup, List.find?]) hsize,
    getArrayValue_newest s _ 2 v2 (by omega) (by simp [lookup, List.find?]) hsize⟩
  · intro h3
    rw [hsize3]
    have : max 3 (toInt32 (h : Int)).toNat = 3 := by
      rw [toInt32_of_range _ (by omega) (by omega)]; omega
    simp only [this]
  · rintro ⟨h3, hlt⟩
    rw [hsize3]
    have : max 3 (toInt32 (h : Int)).toNat = h := by
      rw [toInt32_of_range _ (by omega) (by omega)]; omega
    simp only [this]

/-- C7, amended, on an empty stack with `size_hint` 0: the size read back is 3 and element 1
reads back as the value set at index 1. -/
theorem array_round_trip_witness :
    ∃ s3, emptyGlua.buildArray3 0 (.number 10) (.boolean false) (.string [104, 105]) = .ok () s3 ∧
      s3.getArraySize (-1) = .ok 3 s3 ∧
      s3.getArrayValue 1 (-1) = .ok () (s3.emplace_back (some (.boolean false))) := by
  obtain ⟨s3, h1, -, -, -, h2, -, -, h3, -⟩ :=
    array_round_trip emptyGlua 0 (.number 10) (.boolean false) (.string [104, 105]) (by decide)
  exact ⟨s3, h1, h2 (by decide), h3⟩

/-! ## Maps -/

/-- The function `mapSetFromStack` runs the same three-cell protocol as `arraySetFromStack`. -/
theorem mapSetFromStack_eq (t : GluaV8) (base : List Cell) (addr : Nat) (obj : JSObject)
    (k v : Value) (pk : PropertyKey)
    (hstack : t.m_stack = base ++ [some (.object addr), some k, some v])
    (hheap : t.heap[addr]? = some obj)
    (hkey : v8.toPropertyKey k = some pk)
    (hplain : plainWrite obj pk = true)
    (hsize : base.length + 1 < 2147483648) :
    t.mapSetFromStack = .ok ()
      { t with m_stack := base ++ [some (.object addr)],
               heap := t.heap.set addr (obj.write pk v) } :=
  arraySetFromStack_eq t base addr obj k v pk hstack hheap hkey hplain hsize

/-- One step of filling the map most recently allocated, on top of the stack. -/
theorem setMapEntry_newest (s : GluaV8) (obj : JSObject) (key : StdString) (v : Value)
    (hplain : plainWrite obj (v8.stringKey (v8.NewFromUtf8 key)) = true)
    (hsize : s.m_stack.length + 1 < 2147483648) :
    GluaV8.setMapEntry
        { s with heap := s.heap ++ [obj],
                 m_stack := s.m_stack ++ [some (.object s.heap.length)] } key v
      = .ok () { s with heap := s.heap ++ [obj.write (v8.stringKey (v8.NewFromUtf8 key)) v],
                        m_stack := s.m_stack ++ [some (.object s.heap.length)] } := by
  unfold GluaV8.setMapEntry GluaV8.push_string GluaV8.pushValue
  simp only [Outcome.andThen]
  rw [mapSetFromStack_eq _ s.m_stack s.heap.length obj (.string (v8.NewFromUtf8 key)) v
    (v8.stringKey (v8.NewFromUtf8 key))
    (by simp [GluaV8.emplace_back]) (List.getElem?_concat_length s.heap obj) rfl hplain hsize]
  simp only [GluaV8.emplace_back, List.set_append_right _ _ (Nat.le_refl _), Nat.sub_self,
    List.set_cons_zero]

/-- The keys of the map most recently allocated, on top of the stack. -/
theorem getMapKeys_newest (s : GluaV8) (obj : JSObject)
    (hsize : s.m_stack.length + 1 < 2147483648) :
    GluaV8.getMapKeys
        { s with heap := s.heap ++ [obj],
                 m_stack := s.m_stack ++ [some (.object s.heap.length)] } (-1)
      = .ok (obj.props.map fun e => stringResult (v8.keyString e.1))
          { s with heap := s.heap ++ [obj],
                   m_stack := s.m_stack ++ [some (.object s.heap.length)] } := by
  have htop := getAtStackPos_top { s with heap := s.heap ++ [obj] }
    (some (.object s.heap.length)) hsize
  simp only [GluaV8.emplace_back] at htop
  unfold GluaV8.getMapKeys
  rw [htop]
  simp only [Outcome.andThen, v8.PropertyNames, List.getElem?_concat_length, List.map_map]
  rfl

/-- Reading a set key of the map most recently allocated, on top of the stack. -/
theorem getMapValue_newest (s : GluaV8) (obj : JSObject) (key : StdString) (v : Value)
    (hlook : lookup obj.props (v8.stringKey (v8.NewFromUtf8 key)) = some v)
    (hsize : s.m_stack.length + 1 < 2147483648) :
    GluaV8.getMapValue
        { s with heap := s.heap ++ [obj],
                 m_stack := s.m_stack ++ [some (.object s.heap.length)] } key (-1)
      = .ok ()
          (GluaV8.emplace_back
            { s with heap := s.heap ++ [obj],
                     m_stack := s.m_stack ++ [some (.object s.heap.length)] } (some v)) := by
  have htop := getAtStackPos_top { s with heap := s.heap ++ [obj] }
    (some (.object s.heap.length)) hsize
  simp only [GluaV8.emplace_back] at htop
  unfold GluaV8.getMapValue
  rw [htop]
  simp only [Outcome.andThen, v8.GetChecked, List.getElem?_concat_length, hlook,
    GluaV8.pushValue]

/-- The map round trip with the keys "a" and "b" (the instance spelled out in C8): from a
stack of depth `d` within the range of `int`, `pushStartMap(0)` and the two sets leave the stack
at depth `d + 1` with the map on top; `getMapKeys(-1)` returns "a" and "b", once each, and
`getMapValue("a", -1)` pushes one new top cell holding 1. -/
theorem map_round_trip_ab (s : GluaV8) (hsize : s.m_stack.length + 1 < 2147483648) :
    ∃ s2, s.buildMapAB = .ok () s2 ∧
      s2.m_stack = s.m_stack ++ [some (.object s.heap.length)] ∧
      s2.getMapKeys (-1) = .ok [[97], [98]] s2 ∧
      s2.getMapValue [97] (-1) = .ok () (s2.emplace_back (some (.number 1))) ∧
      s2.getMapValue [98] (-1) = .ok () (s2.emplace_back (some (.number 2))) := by
  have hbuild : s.buildMapAB = .ok ()
      { s with heap := s.heap ++ [{ isArray := false, length := 0,
                                    props := [(.name [97], .number 1), (.name [98], .number 2)] }],
               m_stack := s.m_stack ++ [some (.object s.heap.length)] } := by
    unfold GluaV8.buildMapAB GluaV8.pushStartMap v8.Object_New GluaV8.alloc
    simp only [Outcome.andThen, GluaV8.emplace_back]
    rw [setMapEntry_newest s { isArray := false, length := 0, props := [] } [97] _ rfl hsize]
    simp only []
    rw [setMapEntry_newest s
      (({ isArray := false, length := 0, props := [] } : JSObject).write
        (v8.stringKey (v8.NewFromUtf8 [97])) (v8.Int32_New 1)) [98] _ rfl hsize]
    rfl
  refine ⟨_, hbuild, rfl, ?_, ?_, ?_⟩
  · rw [getMapKeys_newest s _ hsize]; rfl
  · exact getMapValue_newest s _ [97] _ rfl hsize
  · exact getMapValue_newest s _ [98] _ rfl hsize

/-- ASCII bytes decode to themselves. -/
theorem NewFromUtf8_ascii (k : StdString) (h : ∀ b ∈ k, b < 128) : v8.NewFromUtf8 k = k := by
  unfold v8.NewFromUtf8
  induction k with
  | nil => rfl
  | cons b rest ih =>
    have hb : b < 128 := h b (List.mem_cons_self _ _)
    have hl : v8.utf8Lead b = ([b], 0, 0) := by unfold v8.utf8Lead; rw [if_pos hb]
    rw [v8.utf8Decode, hl]
    simp only [List.singleton_append]
    rw [ih (fun c hc => h c (List.mem_cons_of_mem _ hc))]

/-- An ASCII string has as many UTF-8 bytes as code units. -/
theorem utf8LengthFrom_ascii (str : JSString) (h : ∀ u ∈ str, u < 128) (lead : Bool) :
    v8.utf8LengthFrom lead str = str.length := by
  induction str generalizing lead with
  | nil => rfl
  | cons u rest ih =>
    have hu : u < 128 := h u (List.mem_cons_self _ _)
    rw [v8.utf8LengthFrom, if_pos hu, ih (fun c hc => h c (List.mem_cons_of_mem _ hc))]
    simp only [List.length_cons]; omega

/-- An ASCII string is read out into a `std::string` unchanged. -/
theorem stringResult_ascii (str : JSString) (h : ∀ u ∈ str, u < 128) :
    stringResult str = str := by
  have hmap : (str.map fun u => u % 256) = str := by
    induction str with
    | nil => rfl
    | cons u rest ih =>
      have hu : u < 128 := h u (List.mem_cons_self _ _)
      simp only [List.map_cons, ih (fun c hc => h c (List.mem_cons_of_mem _ hc))]
      rw [Nat.mod_eq_of_lt (by omega)]
  unfold stringResult v8.WriteOneByte v8.Utf8Length
  simp only [utf8LengthFrom_ascii str h, hmap, List.length_replicate]
  rw [List.drop_of_length_le (by simp), List.append_nil,
    List.set_eq_of_length_le (Nat.le_refl _), List.take_length]

/-- The key that names a string converts back to that string. -/
theorem keyString_stringKey (str : JSString) : v8.keyString (v8.stringKey str) = str := by
  unfold v8.stringKey v8.canonicalIndex
  split
  · next i hi =>
    split at hi
    · next hc =>
      injection hi with hi
      rw [← hi]; exact hc.2.2.2
    · exact absurd hi (by simp)
  · rfl

/-- Different strings name different properties. -/
theorem stringKey_injective (a b : JSString) (h : v8.stringKey a = v8.stringKey b) : a = b := by
  rw [← keyString_stringKey a, ← keyString_stringKey b, h]

/-- Writing a property under a key not yet present appends it. -/
theorem setProp_fresh (props : List (PropertyKey × Value)) (k : PropertyKey) (v : Value)
    (h : lookup props k = none) : setProp props k v = props ++ [(k, v)] := by
  unfold setProp
  rw [(lookup_eq_none_iff props k).mp h]; rfl

/-- Looking up the key of an entry in a list of entries with distinct keys. -/
theorem lookup_of_mem_nodup {κ β : Type} [DecidableEq κ] (m : List (κ × β)) (e : κ × β)
    (hmem : e ∈ m) (hnd : (m.map Prod.fst).Nodup) : lookup m e.1 = some e.2 := by
  unfold lookup
  induction m with
  | nil => exact absurd hmem (List.not_mem_nil _)
  | cons x rest ih =>
    rw [List.map_cons, List.nodup_cons] at hnd
    rcases List.mem_cons.mp hmem with heq | hrest
    · subst heq; simp [List.find?]
    · have hne : x.1 ≠ e.1 := by
        intro hx
        exact hnd.1 (hx ▸ List.mem_map_of_mem Prod.fst hrest)
      simp only [List.find?, hne, decide_False]
      exact ih hrest hnd.2

/-- A key absent from the keys of a list of entries is not found in it. -/
theorem lookup_of_not_mem {κ β : Type} [DecidableEq κ] (m : List (κ × β)) (k : κ)
    (h : k ∉ m.map Prod.fst) : lookup m k = none := by
  unfold lookup
  induction m with
  | nil => rfl
  | cons x rest ih =>
    have hne : x.1 ≠ k := fun hx => h (by simp [hx])
    simp only [List.find?, hne, decide_False]
    exact ih (fun hk => h (by simp [hk]))

/-- A plain object written under a key it does not have yet gains the entry at the end. -/
theorem write_fresh_plain (props : List (PropertyKey × Value)) (k : PropertyKey) (v : Value)
    (h : lookup props k = none) :
    ({ isArray := false, length := 0, props := props } : JSObject).write k v
      = { isArray := false, length := 0, props := props ++ [(k, v)] } := by
  unfold JSObject.write
  rw [setProp_fresh props k v h]
  cases k <;> simp

/-- Filling the map most recently allocated, on top of the stack, with entries whose keys are
new and distinct: the entries are appended in order. -/
theorem setMapEntries_newest (s : GluaV8) (entries : List (StdString × Value))
    (props : List (PropertyKey × Value))
    (hproto : ∀ e ∈ entries, v8.NewFromUtf8 e.1 ≠ protoName)
    (hnd : (props.map Prod.fst ++
      entries.map fun e => v8.stringKey (v8.NewFromUtf8 e.1)).Nodup)
    (hsize : s.m_stack.length + 1 < 2147483648) :
    GluaV8.setMapEntries
        { s with heap := s.heap ++ [{ isArray := false, length := 0, props := props }],
                 m_stack := s.m_stack ++ [some (.object s.heap.length)] } entries
      = .ok ()
          { s with
            heap := s.heap ++
              [{ isArray := false, length := 0,
                 props := props ++
                   entries.map fun e => (v8.stringKey (v8.NewFromUtf8 e.1), e.2) }],
            m_stack := s.m_stack ++ [some (.object s.heap.length)] } := by
  induction entries generalizing props with
  | nil => simp [GluaV8.setMapEntries]
  | cons e rest ih =>
    have hfresh : lookup props (v8.stringKey (v8.NewFromUtf8 e.1)) = none := by
      apply lookup_of_not_mem
      intro hin
      rw [List.map_cons, List.nodup_append] at hnd
      exact hnd.2.2 hin (List.mem_cons_self _ _)
    have hplain : plainWrite { isArray := false, length := 0, props := props }
        (v8.stringKey (v8.NewFromUtf8 e.1)) = true := by
      have hne := hproto e (List.mem_cons_self _ _)
      unfold plainWrite v8.stringKey
      split
      · rfl
      · next str hstr =>
        split at hstr
        · exact absurd hstr (by simp)
        · injection hstr with hstr
          subst hstr
          simp [hne]
    rw [GluaV8.setMapEntries, setMapEntry_newest s _ e.1 e.2 hplain hsize]
    simp only [Outcome.andThen]
    rw [write_fresh_plain props _ e.2 hfresh, ih]
    · simp
    · intro x hx; exact hproto x (List.mem_cons_of_mem _ hx)
    · rw [List.map_cons] at hnd
      simpa [List.append_assoc] using hnd

/-- The map round trip for ASCII keys.  For distinct keys made of ASCII bytes, none of them
"__proto__", set to any values: `pushStartMap(0)` and the sets leave the stack with one more
cell, the map; `getMapKeys(-1)` returns exactly those keys; and `getMapValue(k, -1)` pushes
one new top cell holding the value set under `k`. -/
theorem map_round_trip_ascii (s : GluaV8) (entries : List (StdString × Value))
    (hascii : ∀ e ∈ entries, ∀ b ∈ e.1, b < 128)
    (hproto : ∀ e ∈ entries, e.1 ≠ protoName)
    (hnd : (entries.map Prod.fst).Nodup)
    (hsize : s.m_stack.length + 1 < 2147483648) :
    ∃ s2, s.buildMap entries = .ok () s2 ∧
      s2.m_stack = s.m_stack ++ [some (.object s.heap.length)] ∧
      s2.getMapKeys (-1) = .ok (entries.map Prod.fst) s2 ∧
      ∀ e ∈ entries, s2.getMapValue e.1 (-1) = .ok () (s2.emplace_back (some e.2)) := by
  have hdec : ∀ e ∈ entries, v8.NewFromUtf8 e.1 = e.1 := fun e he =>
    NewFromUtf8_ascii e.1 (hascii e he)
  have hkeys : (entries.map fun e => (v8.stringKey (v8.NewFromUtf8 e.1), e.2))
      = entries.map fun e => (v8.stringKey e.1, e.2) :=
    List.map_congr_left fun e he => by rw [hdec e he]
  have hnd2 : (entries.map fun e => v8.stringKey e.1).Nodup := by
    have : (entries.map fun e => v8.stringKey e.1)
        = (entries.map Prod.fst).map v8.stringKey := by simp
    rw [this]
    exact hnd.map (fun a b hab => stringKey_injective a b hab)
  have hbuild : s.buildMap entries = .ok ()
      { s with
        heap := s.heap ++
          [{ isArray := false, length := 0,
             props := entries.map fun e => (v8.stringKey e.1, e.2) }],
        m_stack := s.m_stack ++ [some (.object s.heap.length)] } := by
    unfold GluaV8.buildMap GluaV8.pushStartMap v8.Object_New GluaV8.alloc
    simp only [Outcome.andThen, GluaV8.emplace_back]
    rw [setMapEntries_newest s entries [] (fun e he => by rw [hdec e he]; exact hproto e he)
      (by
        have : (entries.map fun e => v8.stringKey (v8.NewFromUtf8 e.1))
            = entries.map fun e => v8.stringKey e.1 :=
          List.map_congr_left fun e he => by rw [hdec e he]
        simpa [this] using hnd2) hsize]
    simp only [List.nil_append, hkeys]
  refine ⟨_, hbuild, rfl, ?_, ?_⟩
  · rw [getMapKeys_newest s _ hsize]
    congr 1
    simp only [List.map_map]
    apply List.map_congr_left
    intro e he
    simp only [Function.comp, keyString_stringKey]
    exact stringResult_ascii e.1 (hascii e he)
  · intro e he
    apply getMapValue_newest s _ e.1 e.2 _ hsize
    rw [hdec e he]
    have hmem : (v8.stringKey e.1, e.2) ∈ entries.map fun x => (v8.stringKey x.1, x.2) :=
      List.mem_map_of_mem (fun x => (v8.stringKey x.1, x.2)) he
    have := lookup_of_mem_nodup _ _ hmem (by simpa [Function.comp] using hnd2)
    simpa using this

/-- The ASCII map round trip at the keys "a" and "b" set to 1 and 2. -/
theorem map_round_trip_ascii_witness :
    ∃ s2, demoStack.buildMap [([97], .number 1), ([98], .number 2)] = .ok () s2 ∧
      s2.getMapKeys (-1) = .ok [[97], [98]] s2 ∧
      s2.getMapValue [97] (-1) = .ok () (s2.emplace_back (some (.number 1))) := by
  obtain ⟨s2, h1, -, h2, h3⟩ :=
    map_round_trip_ascii demoStack [([97], .number 1), ([98], .number 2)]
      (by decide) (by decide) (by decide) (by decide)
  exact ⟨s2, h1, h2, h3 ([97], .number 1) (by simp)⟩

/-- C8, the failing input.  A map is given the single key "é", the two bytes 195, 169 of its
UTF-8 encoding, set to 1.  `getMapKeys(-1)` then returns one key made of the bytes 233, 0:
the buffer has the two bytes `Utf8Length` counts, and `WriteOneByte` puts the one code unit
U+00E9 there as a single byte.  The key that was set is not among the keys returned. -/
theorem map_keys_non_ascii :
    ∃ s2, (emptyGlua.pushStartMap 0).andThen
        (fun _ s1 => s1.setMapEntry [195, 169] (.number 1)) = .ok () s2 ∧
      s2.getMapKeys (-1) = .ok [[233, 0]] s2 ∧
      ([195, 169] : StdString) ∉ [([233, 0] : StdString)] := by
  refine ⟨_, rfl, ?_, ?_⟩
  · decide
  · decide

/-! ## Global slots -/

/-- Calling `setGlobalFromStack` on a name that already has a slot changes nothing: `emplace`
does not replace the stored handle. -/
theorem setGlobalFromStack_existing (s : GluaV8) (name : StdString) (i : Int) (old c : Cell)
    (hold : lookup s.m_global_values name = some old)
    (hget : s.getAtStackPos i = .ok c s) :
    s.setGlobalFromStack name i = .ok () s := by
  have hany : s.m_global_values.any (fun e => decide (e.1 = name)) = true := by
    cases h : s.m_global_values.any (fun e => decide (e.1 = name)) with
    | true => rfl
    | false =>
      rw [← lookup_eq_none_iff, hold] at h
      exact absurd h (by simp)
  unfold GluaV8.setGlobalFromStack
  rw [hget]
  simp only [Outcome.andThen, emplace, hany, if_true]

/-- Calling `setGlobalFromStack` on a name without a slot stores the cell under it, and leaves the
stack alone. -/
theorem setGlobalFromStack_fresh (s : GluaV8) (name : StdString) (i : Int) (c : Cell)
    (hfresh : lookup s.m_global_values name = none)
    (hget : s.getAtStackPos i = .ok c s) :
    s.setGlobalFromStack name i
      = .ok () { s with m_global_values := s.m_global_values ++ [(name, c)] } := by
  have hany := (lookup_eq_none_iff s.m_global_values name).mp hfresh
  unfold GluaV8.setGlobalFromStack
  rw [hget]
  simp only [Outcome.andThen, emplace, hany, Bool.false_eq_true, if_false]

/-- C9, the failing input.  On a stack whose cell 0 holds the number 10 and whose cell 1 holds
the boolean true, with no global set, `setGlobalFromStack("g", 0)` followed by
`setGlobalFromStack("g", 1)` leaves the slot "g" holding 10, the first value, and a following
`pushGlobal("g")` pushes 10, not true.  Neither `setGlobalFromStack` changes the stack. -/
theorem global_slot_keeps_first :
    ∃ s1 s2 s3,
      demoStack.setGlobalFromStack [103] 0 = .ok () s1 ∧
      s1.setGlobalFromStack [103] 1 = .ok () s2 ∧
      s2.pushGlobal [103] = .ok () s3 ∧
      s1.m_stack = demoStack.m_stack ∧ s2.m_stack = demoStack.m_stack ∧
      lookup s2.m_global_values [103] = some (some (.number 10)) ∧
      s3.m_stack = demoStack.m_stack ++ [some (.number 10)] ∧
      demoStack.getAtStackPos 1 = .ok (some (.boolean true)) demoStack := by
  refine ⟨_, _, _, rfl, rfl, rfl, ?_, ?_, ?_, ?_, ?_⟩ <;> decide

/-! ## Running a script -/

/-- C10, counterexample.  The script "1" calls no stack operation and evaluates to 1.
`RunScript` on an empty stack returns normally and leaves the stack at depth 1, the result of
the script on it, not at depth 0. -/
theorem RunScript_depth_counterexample :
    emptyGlua.RunScript sampleEngine [49]
      = .ok () { emptyGlua with m_stack := [some (.number 1)] } ∧
    ({ emptyGlua with m_stack := [some (.number 1)] } : GluaV8).m_stack.length
      ≠ emptyGlua.m_stack.length := by
  constructor
  · rfl
  · decide

/-- C10, amended.  `RunScript` removes no cell and adds at most one.  When the source compiles
and the run completes with a value, `RunScript` returns with that value pushed on top of the
stack the run left: the depth is `d + 1` when the run itself left the stack as it found it.
When the run ends with an uncaught script exception (an empty result), `RunScript` also
returns normally, with the object as the run left it: depth `d` when the run left the stack as
it found it.  When the source does not compile, `ToLocalChecked` ends the process. -/
theorem RunScript_depth (s : GluaV8) (engine : Engine) (script_data : StdString) :
    (engine.Compile (v8.NewFromUtf8 script_data) = none →
      s.RunScript engine script_data = .fatal) ∧
    (∀ script, engine.Compile (v8.NewFromUtf8 script_data) = some script →
      (∀ v s1, script.Run s = .ok (some v) s1 →
        s.RunScript engine script_data = .ok () (s1.emplace_back (some v)) ∧
        (s1.emplace_back (some v)).m_stack = s1.m_stack ++ [some v] ∧
        (s1.m_stack = s.m_stack →
          (s1.emplace_back (some v)).m_stack.length = s.m_stack.length + 1)) ∧
      (∀ s1, script.Run s = .ok none s1 →
        s.RunScript engine script_data = .ok () s1 ∧
        (s1.m_stack = s.m_stack → s1.m_stack.length = s.m_stack.length))) := by
  refine ⟨?_, ?_⟩
  · intro hc
    unfold GluaV8.RunScript
    simp only [hc]
  · intro script hc
    refine ⟨?_, ?_⟩
    · intro v s1 hrun
      refine ⟨?_, rfl, ?_⟩
      · unfold GluaV8.RunScript
        simp only [hc, hrun, Outcome.andThen]
      · intro hs
        simp [GluaV8.emplace_back, hs]
    · intro s1 hrun
      refine ⟨?_, ?_⟩
      · unfold GluaV8.RunScript
        simp only [hc, hrun, Outcome.andThen]
      · intro hs; rw [hs]

/-- C10, amended, on a stack of three cells: the script "1" leaves four cells, the script
"throw 1" leaves the three cells, and a source that does not compile ends the process. -/
theorem RunScript_depth_witness :
    demoStack.RunScript sampleEngine [49] = .ok () (demoStack.emplace_back (some (.number 1))) ∧
    demoStack.RunScript sampleEngine [116, 104, 114, 111, 119, 32, 49] = .ok () demoStack ∧
    demoStack.RunScript sampleEngine [40] = .fatal :=
  ⟨(((RunScript_depth demoStack sampleEngine [49]).2 (constantScript (.number 1)) rfl).1
      (.number 1) demoStack rfl).1,
   (((RunScript_depth demoStack sampleEngine [116, 104, 114, 111, 119, 32, 49]).2
      throwingScript rfl).2 demoStack rfl).1,
   (RunScript_depth demoStack sampleEngine [40]).1 rfl⟩

/-! ## 64-bit integers -/

/-- C11, counterexample.  The `int64_t` 2^32 lies within the safe integer range, yet
`push(v)` followed by `getInt64(-1)` returns 0; the `uint64_t` 2^32 + 5 comes back from
`getUInt64(-1)` as 5. -/
theorem int64_round_trip_counterexample :
    (4294967296 : Int) ≤ 9007199254740991 ∧
    (∃ s1, emptyGlua.push_int64 4294967296 = .ok () s1 ∧
      s1.getInt64 (-1) = .ok 0 s1 ∧ s1.getInt64 (-1) ≠ .ok 4294967296 s1) ∧
    (∃ s1, emptyGlua.push_uint64 4294967301 = .ok () s1 ∧
      s1.getUInt64 (-1) = .ok 5 s1 ∧ s1.getUInt64 (-1) ≠ .ok 4294967301 s1) := by
  refine ⟨by decide, ⟨_, rfl, ?_, ?_⟩, ⟨_, rfl, ?_, ?_⟩⟩ <;> decide

/-- C11, amended.  On a stack that stays within the range of `int`: for every `int64_t` `v`,
`push(v)` followed by `getInt64(-1)` returns a value `r` in the `int32_t` range that is
congruent to `v` modulo 2^32, and `r` is `v` exactly when `v` lies in the `int32_t` range
`[-2^31, 2^31)`; for every `uint64_t` `v`, `push(v)` followed by `getUInt64(-1)` returns
`v mod 2^32`, which is `v` exactly when `v < 2^32`.  The range in which 64-bit values round-trip
is the 32-bit range, not the safe integer range. -/
theorem int64_round_trip_exact_iff (s : GluaV8) (v : Int)
    (hsize : s.m_stack.length + 1 < 2147483648) :
    (-9223372036854775808 ≤ v ∧ v < 9223372036854775808 →
      ∃ s1 r, s.push_int64 v = .ok () s1 ∧ s1.getInt64 (-1) = .ok r s1 ∧
        -2147483648 ≤ r ∧ r < 2147483648 ∧ (r - v) % 4294967296 = 0 ∧
        (r = v ↔ -2147483648 ≤ v ∧ v < 2147483648)) ∧
    (0 ≤ v ∧ v < 18446744073709551616 →
      ∃ s1 r, s.push_uint64 v = .ok () s1 ∧ s1.getUInt64 (-1) = .ok r s1 ∧
        r = v % 4294967296 ∧ (r = v ↔ v < 4294967296)) := by
  refine ⟨?_, ?_⟩
  · rintro -
    have e : toInt32 (toInt32 v) = toInt32 v := by unfold toInt32; omega
    refine ⟨s.emplace_back (some (.number (toInt32 v))), toInt32 v, ?_, ?_, ?_, ?_, ?_, ?_⟩
    · simp only [GluaV8.push_int64, v8.Int32_New, e]
    · simp only [GluaV8.getInt64, getInt32_top_number s (toInt32 v) hsize, e]
    · unfold toInt32; omega
    · unfold toInt32; omega
    · unfold toInt32; omega
    · unfold toInt32; omega
  · rintro ⟨h0, -⟩
    have e : toUInt32 (toUInt32 v) = toUInt32 v := by unfold toUInt32; omega
    refine ⟨s.emplace_back (some (.number (toUInt32 v))), toUInt32 v, ?_, ?_, rfl, ?_⟩
    · simp only [GluaV8.push_uint64, v8.Uint32_New, e]
    · simp only [GluaV8.getUInt64, getUInt32_top_number s (toUInt32 v) hsize, e]
    · unfold toUInt32; omega

/-- C11, amended, at concrete values: the `int64_t` -3 comes back as -3, and the `int64_t`
2^31, one past the `int32_t` range, comes back as -2^31. -/
theorem int64_round_trip_exact_iff_witness :
    (∃ s1, demoStack.push_int64 (-3) = .ok () s1 ∧ s1.getInt64 (-1) = .ok (-3) s1) ∧
    (∃ s1, demoStack.push_int64 2147483648 = .ok () s1 ∧
      s1.getInt64 (-1) = .ok (-2147483648) s1) := by
  refine ⟨?_, ?_⟩
  · obtain ⟨s1, r, h1, h2, -, -, -, h3⟩ :=
      (int64_round_trip_exact_iff demoStack (-3) (by decide)).1 (by decide)
    have : r = -3 := h3.mpr (by decide)
    subst this
    exact ⟨s1, h1, h2⟩
  · obtain ⟨s1, r, h1, h2, h3, h4, h5, -⟩ :=
      (int64_round_trip_exact_iff demoStack 2147483648 (by decide)).1 (by decide)
    have : r = -2147483648 := by omega
    subst this
    exact ⟨s1, h1, h2⟩

/-! ## Type probes -/

/-- A probe at index -1 right after a value was pushed answers for that value. -/
theorem probe_top (s : GluaV8) (v : Value) (p : Value → Bool)
    (hsize : s.m_stack.length + 1 < 2147483648) :
    ((s.emplace_back (some v)).getAtStackPos (-1)).andThen (v8.probe p)
      = .ok (p v) (s.emplace_back (some v)) := by
  rw [getAtStackPos_top s _ hsize]; rfl

/-- Every `double` becomes a Number. -/
theorem IsNumber_Number_New (bits : Nat) : v8.IsNumber (v8.Number_New bits) = true := by
  simp only [v8.Number_New]
  split_ifs <;> rfl

/-- After `push(int64_t)` the probe `isInt64(-1)` answers false, and after `push(uint64_t)` the
probe `isUInt64(-1)` answers false, whatever the value: the cell holds a Number and the probes
ask for a BigInt. -/
theorem is64_after_push64 (s : GluaV8) (v : Int) (hsize : s.m_stack.length + 1 < 2147483648) :
    (∃ s1, s.push_int64 v = .ok () s1 ∧ s1.isInt64 (-1) = .ok false s1) ∧
    (∃ s1, s.push_uint64 v = .ok () s1 ∧ s1.isUInt64 (-1) = .ok false s1) :=
  ⟨⟨_, rfl, probe_top s _ v8.IsBigInt hsize⟩, ⟨_, rfl, probe_top s _ v8.IsBigInt hsize⟩⟩

/-- For the kinds other than the 64-bit integers the probe accepts what was pushed: on a stack
that stays within the range of `int`, `is<T>(-1)` answers true after `push<T>(v)` for every
boolean, every value of the 8-, 16- and 32-bit integer kinds, every `float` and `double`, and
every string in its three representations. -/
theorem is_accepts_pushed (s : GluaV8) (hsize : s.m_stack.length + 1 < 2147483648) :
    (∀ b : Bool, ∃ s1, s.push_bool b = .ok () s1 ∧ s1.isBool (-1) = .ok true s1) ∧
    (∀ v : Int, -128 ≤ v ∧ v < 128 →
      ∃ s1, s.push_int8 v = .ok () s1 ∧ s1.isInt8 (-1) = .ok true s1) ∧
    (∀ v : Int, -32768 ≤ v ∧ v < 32768 →
      ∃ s1, s.push_int16 v = .ok () s1 ∧ s1.isInt16 (-1) = .ok true s1) ∧
    (∀ v : Int, -2147483648 ≤ v ∧ v < 2147483648 →
      ∃ s1, s.push_int32 v = .ok () s1 ∧ s1.isInt32 (-1) = .ok true s1) ∧
    (∀ v : Int, 0 ≤ v ∧ v < 256 →
      ∃ s1, s.push_uint8 v = .ok () s1 ∧ s1.isUInt8 (-1) = .ok true s1) ∧
    (∀ v : Int, 0 ≤ v ∧ v < 65536 →
      ∃ s1, s.push_uint16 v = .ok () s1 ∧ s1.isUInt16 (-1) = .ok true s1) ∧
    (∀ v : Int, 0 ≤ v ∧ v < 4294967296 →
      ∃ s1, s.push_uint32 v = .ok () s1 ∧ s1.isUInt32 (-1) = .ok true s1) ∧
    (∀ bits : Nat, ∃ s1, s.push_float bits = .ok () s1 ∧ s1.isFloat (-1) = .ok true s1) ∧
    (∀ bits : Nat, ∃ s1, s.push_double bits = .ok () s1 ∧ s1.isDouble (-1) = .ok true s1) ∧
    (∀ str : StdString,
      ∃ s1, s.push_char_pointer str = .ok () s1 ∧ s1.isCharPointer (-1) = .ok true s1) ∧
    (∀ str : StdString,
      ∃ s1, s.push_string_view str = .ok () s1 ∧ s1.isStringView (-1) = .ok true s1) ∧
    (∀ str : StdString,
      ∃ s1, s.push_string str = .ok () s1 ∧ s1.isString (-1) = .ok true s1) := by
  have hI : ∀ v : Int, -2147483648 ≤ v ∧ v < 2147483648 →
      v8.IsInt32 (v8.Int32_New v) = true := by
    intro v hv
    unfold v8.Int32_New; rw [toInt32_of_range v hv.1 hv.2]
    simp [v8.IsInt32, hv.1, hv.2]
  have hU : ∀ v : Int, 0 ≤ v ∧ v < 4294967296 → v8.IsUint32 (v8.Uint32_New v) = true := by
    intro v hv
    unfold v8.Uint32_New; rw [toUInt32_of_range v hv.1 hv.2]
    simp [v8.IsUint32, hv.1, hv.2]
  refine ⟨?_, ?_, ?_, ?_, ?_, ?_, ?_, ?_, ?_, ?_, ?_, ?_⟩
  · intro b
    exact ⟨_, rfl, probe_top s _ v8.IsBoolean hsize⟩
  · intro v hv
    refine ⟨_, rfl, ?_⟩
    rw [GluaV8.isInt8, probe_top s _ v8.IsInt32 hsize, hI v ⟨by omega, by omega⟩]
  · intro v hv
    refine ⟨_, rfl, ?_⟩
    rw [GluaV8.isInt16, probe_top s _ v8.IsInt32 hsize, hI v ⟨by omega, by omega⟩]
  · intro v hv
    refine ⟨_, rfl, ?_⟩
    rw [GluaV8.isInt32, probe_top s _ v8.IsInt32 hsize, hI v hv]
  · intro v hv
    refine ⟨_, rfl, ?_⟩
    rw [GluaV8.isUInt8, probe_top s _ v8.IsUint32 hsize, hU v ⟨by omega, by omega⟩]
  · intro v hv
    refine ⟨_, rfl, ?_⟩
    rw [GluaV8.isUInt16, probe_top s _ v8.IsUint32 hsize, hU v ⟨by omega, by omega⟩]
  · intro v hv
    refine ⟨_, rfl, ?_⟩
    rw [GluaV8.isUInt32, probe_top s _ v8.IsUint32 hsize, hU v hv]
  · intro bits
    refine ⟨_, rfl, ?_⟩
    rw [GluaV8.isFloat, probe_top s _ v8.IsNumber hsize, IsNumber_Number_New]
  · intro bits
    refine ⟨_, rfl, ?_⟩
    rw [GluaV8.isDouble, probe_top s _ v8.IsNumber hsize, IsNumber_Number_New]
  · intro str
    exact ⟨_, rfl, probe_top s _ v8.IsString hsize⟩
  · intro str
    exact ⟨_, rfl, probe_top s _ v8.IsString hsize⟩
  · intro str
    exact ⟨_, rfl, probe_top s _ v8.IsString hsize⟩

/-- C12, the failing input.  On a stack of three cells `push(int64_t 5)` is followed by
`getInt64(-1)`, which returns 5 without any mismatch, and by `isInt64(-1)`, which answers
false; the same with `push(uint64_t 5)`, `getUInt64(-1)` and `isUInt64(-1)`. -/
theorem isInt64_rejects_pushed_int64 :
    (∃ s1, demoStack.push_int64 5 = .ok () s1 ∧
      s1.getInt64 (-1) = .ok 5 s1 ∧ s1.isInt64 (-1) = .ok false s1) ∧
    (∃ s1, demoStack.push_uint64 5 = .ok () s1 ∧
      s1.getUInt64 (-1) = .ok 5 s1 ∧ s1.isUInt64 (-1) = .ok false s1) := by
  refine ⟨⟨_, rfl, ?_, ?_⟩, ⟨_, rfl, ?_, ?_⟩⟩ <;> decide

/-- C13, counterexample.  `isInt32(0)` on an empty stack, and `isString(3)` and `isNull(-4)`
on a stack of three cells, throw `std::out_of_range` instead of returning a boolean. -/
theorem is_probe_out_of_range_counterexample :
    emptyGlua.isInt32 0 = .throws .out_of_range emptyGlua ∧
    demoStack.isString 3 = .throws .out_of_range demoStack ∧
    demoStack.isNull (-4) = .throws .out_of_range demoStack := by
  refine ⟨?_, ?_, ?_⟩ <;> decide

/-- C13, amended.  On a stack of depth `n` within the range of `int`, for an `int` index `i`:
when `i` lies in `[-n, n)` and the cell it resolves to holds a value, every probe `is<T>(i)`
returns a boolean, the answer of the V8 predicate for that value, and leaves the object as it
was (`isArray` needs the value, if an object, to be an object of the heap); when `i` lies
outside `[-n, n)`, every probe throws `std::out_of_range`, as the getters do. -/
theorem is_probe_in_range (s : GluaV8) (i : Int)
    (hsize : s.m_stack.length < 2147483648)
    (hint : -2147483648 ≤ i ∧ i < 2147483648) :
    (∀ v : Value,
      (0 ≤ i ∧ s.m_stack[i.toNat]? = some (some v)) ∨
      (i < 0 ∧ -(s.m_stack.length : Int) ≤ i ∧
        s.m_stack[((s.m_stack.length : Int) + i).toNat]? = some (some v)) →
      s.isNull i = .ok (v8.IsNull v) s ∧
      s.isBool i = .ok (v8.IsBoolean v) s ∧
      s.isInt8 i = .ok (v8.IsInt32 v) s ∧
      s.isInt16 i = .ok (v8.IsInt32 v) s ∧
      s.isInt32 i = .ok (v8.IsInt32 v) s ∧
      s.isInt64 i = .ok (v8.IsBigInt v) s ∧
      s.isUInt8 i = .ok (v8.IsUint32 v) s ∧
      s.isUInt16 i = .ok (v8.IsUint32 v) s ∧
      s.isUInt32 i = .ok (v8.IsUint32 v) s ∧
      s.isUInt64 i = .ok (v8.IsBigInt v) s ∧
      s.isFloat i = .ok (v8.IsNumber v) s ∧
      s.isDouble i = .ok (v8.IsNumber v) s ∧
      s.isCharPointer i = .ok (v8.IsString v) s ∧
      s.isStringView i = .ok (v8.IsString v) s ∧
      s.isString i = .ok (v8.IsString v) s ∧
      s.isMap i = .ok (v8.IsObject v) s ∧
      ((∀ addr, v = .object addr → addr < s.heap.length) → ∃ b, s.isArray i = .ok b s)) ∧
    ((s.m_stack.length : Int) ≤ i ∨ i < -(s.m_stack.length : Int) →
      s.isNull i = .throws .out_of_range s ∧
      s.isBool i = .throws .out_of_range s ∧
      s.isInt8 i = .throws .out_of_range s ∧
      s.isInt16 i = .throws .out_of_range s ∧
      s.isInt32 i = .throws .out_of_range s ∧
      s.isInt64 i = .throws .out_of_range s ∧
      s.isUInt8 i = .throws .out_of_range s ∧
      s.isUInt16 i = .throws .out_of_range s ∧
      s.isUInt32 i = .throws .out_of_range s ∧
      s.isUInt64 i = .throws .out_of_range s ∧
      s.isFloat i = .throws .out_of_range s ∧
      s.isDouble i = .throws .out_of_range s ∧
      s.isCharPointer i = .throws .out_of_range s ∧
      s.isStringView i = .throws .out_of_range s ∧
      s.isString i = .throws .out_of_range s ∧
      s.isArray i = .throws .out_of_range s ∧
      s.isMap i = .throws .out_of_range s) := by
  refine ⟨?_, ?_⟩
  · intro v hcell
    have hget : s.getAtStackPos i = .ok (some v) s := by
      rcases hcell with ⟨h0, hc⟩ | ⟨hneg, hge, hc⟩
      · exact getAtStackPos_nonneg s i _ h0 hint.2 hc
      · exact getAtStackPos_neg s i _ hsize hneg hge hc
    simp only [GluaV8.isNull, GluaV8.isBool, GluaV8.isInt8, GluaV8.isInt16, GluaV8.isInt32,
      GluaV8.isInt64, GluaV8.isUInt8, GluaV8.isUInt16, GluaV8.isUInt32, GluaV8.isUInt64,
      GluaV8.isFloat, GluaV8.isDouble, GluaV8.isCharPointer, GluaV8.isStringView,
      GluaV8.isString, GluaV8.isMap, GluaV8.isArray, hget, Outcome.andThen, v8.probe,
      true_and]
    intro hheap
    cases v with
    | object addr =>
      have hlt := hheap addr rfl
      simp only [v8.IsArrayProbe, List.getElem?_eq_getElem hlt]
      exact ⟨_, rfl⟩
    | _ => exact ⟨false, rfl⟩
  · intro hout
    have hget := getAtStackPos_out_of_range s i hsize hint hout
    simp only [GluaV8.isNull, GluaV8.isBool, GluaV8.isInt8, GluaV8.isInt16, GluaV8.isInt32,
      GluaV8.isInt64, GluaV8.isUInt8, GluaV8.isUInt16, GluaV8.isUInt32, GluaV8.isUInt64,
      GluaV8.isFloat, GluaV8.isDouble, GluaV8.isCharPointer, GluaV8.isStringView,
      GluaV8.isString, GluaV8.isMap, GluaV8.isArray, hget, Outcome.andThen, and_self]

/-- C13, amended, on a stack of three cells: at index 1, which holds a boolean, `isBool`
answers true and `isInt32` answers false; at index 7 `isBool` throws. -/
theorem is_probe_in_range_witness :
    demoStack.isBool 1 = .ok true demoStack ∧
    demoStack.isInt32 1 = .ok false demoStack ∧
    demoStack.isBool 7 = .throws .out_of_range demoStack := by
  have h := (is_probe_in_range demoStack 1 (by decide) (by decide)).1 (.boolean true)
    (Or.inl ⟨by decide, by decide⟩)
  have h7 := (is_probe_in_range demoStack 7 (by decide) (by decide)).2 (Or.inl (by decide))
  exact ⟨h.2.1, h.2.2.2.2.1, h7.2.1⟩

/-! ## Managed types -/

/-- C14, counterexample.  On a stack of three cells, `pushUserType("t", s)` with the storage
block at address 42 returns with the three cells as they were, no handle pushed, and
`getUserType("t", -1)` then returns null, not the block. -/
theorem user_type_counterexample :
    demoStack.pushUserType [116] 42 = .ok () demoStack ∧
    demoStack.m_stack.length = 3 ∧
    demoStack.getUserType [116] (-1) = .ok none demoStack ∧
    demoStack.getUserType [116] (-1) ≠ .ok (some 42) demoStack := by
  refine ⟨rfl, rfl, rfl, ?_⟩
  decide

/-- C14, amended.  For every type name and storage block, `pushUserType` returns without
pushing anything: the stack and the rest of the object stay as they were.  For every type name,
the one given to `pushUserType` included, and for every index, valid or not, `getUserType`
returns null without failing and without changing the object. -/
theorem user_type_stubs (s : GluaV8) (unique_type_name : StdString) (user_storage : Nat) :
    s.pushUserType unique_type_name user_storage = .ok () s ∧
    (∀ (other : StdString) (stack_index : Int),
      s.getUserType other stack_index = .ok none s) :=
  ⟨rfl, fun _ _ => rfl⟩

/-! ## pushGlobal on a name never set -/

/-- C15.  For a name absent from the global-slot map, `pushGlobal(name)` returns, pushes one
empty cell and stores an empty entry under the name.  After that, for every valid index `i`
(one at which `getAtStackPos` returns a cell), `setGlobalFromStack(name, i)` returns and
changes nothing, the entry staying empty; so a later `pushGlobal(name)` pushes an empty cell
again, which is not the value of the cell at `i` whenever that cell holds one. -/
theorem pushGlobal_unset_not_read_only (s : GluaV8) (name : StdString)
    (hfresh : lookup s.m_global_values name = none) :
    ∃ s1, s.pushGlobal name = .ok () s1 ∧
      s1.m_stack = s.m_stack ++ [none] ∧
      s1.m_global_values = s.m_global_values ++ [(name, none)] ∧
      lookup s1.m_global_values name = some none ∧
      ∀ (i : Int) (c : Cell), s1.getAtStackPos i = .ok c s1 →
        s1.setGlobalFromStack name i = .ok () s1 ∧
        s1.pushGlobal name = .ok () (s1.emplace_back none) ∧
        (s1.emplace_back none).m_stack = s1.m_stack ++ [none] ∧
        ∀ v : Value, c = some v → (none : Cell) ≠ c := by
  have hlook : lookup (s.m_global_values ++ [(name, (none : Cell))]) name = some none := by
    rw [lookup_append_singleton, hfresh]; simp
  refine ⟨GluaV8.emplace_back
      { s with m_global_values := s.m_global_values ++ [(name, none)] } none, ?_, rfl, rfl,
    hlook, ?_⟩
  · unfold GluaV8.pushGlobal subscript
    simp only [hfresh]
  · intro i c hget
    refine ⟨setGlobalFromStack_existing _ name i none c hlook hget, ?_, rfl, ?_⟩
    · unfold GluaV8.pushGlobal subscript
      have hlook2 : lookup (GluaV8.emplace_back
          { s with m_global_values := s.m_global_values ++ [(name, none)] }
          none).m_global_values name = some none := hlook
      simp only [hlook2]
    · intro v hv
      rw [hv]; exact fun h => Option.noConfusion h

/-- C15 on a stack of three cells with no global set: `pushGlobal("g")` pushes an empty cell
and creates the empty entry, `setGlobalFromStack("g", 0)` then changes nothing, and a second
`pushGlobal("g")` pushes an empty cell, not the 10 of cell 0. -/
theorem pushGlobal_unset_not_read_only_witness :
    ∃ s1, demoStack.pushGlobal [103] = .ok () s1 ∧
      s1.m_stack = demoStack.m_stack ++ [none] ∧
      s1.m_global_values = [([103], none)] ∧
      s1.getAtStackPos 0 = .ok (some (.number 10)) s1 ∧
      s1.setGlobalFromStack [103] 0 = .ok () s1 ∧
      s1.pushGlobal [103] = .ok () (s1.emplace_back none) := by
  obtain ⟨s1, h1, h2, h3, -, h5⟩ := pushGlobal_unset_not_read_only demoStack [103] (by decide)
  have hget : s1.getAtStackPos 0 = .ok (some (.number 10)) s1 := by
    apply getAtStackPos_nonneg s1 0 _ (by decide) (by decide)
    rw [h2]; rfl
  obtain ⟨h6, h7, -⟩ := h5 0 _ hget
  exact ⟨s1, h1, h2, h3, hget, h6, h7⟩

end kdk.glua
